import Mathlib

/-!
# gps2video_web: the option framework, the config assembly, the track and the job outcome

A shallow embedding of `httpmakevideo.go`.

* Go strings are `String`; `[]string` is `List String`.
* `int64` values are `Int`, with the range test of `strconv.ParseInt` and an explicit
  wrap-around where the source multiplies.
* A Go result pair `(value, err)` is an `Except GoError value` when the source never looks at the
  value after an error, and a pair `value × Option GoError` when it does (`num, _ := ...`).
* `float64` values are modelled exactly (`F64`): a finite value is `n / 2 ^ k`.
* Go maps are association lists; an iteration over a map is an iteration over some ordering of
  its entries, so every statement about a loop over a map is made for every such ordering.
-/

set_option autoImplicit false

/-! ## Errors -/

/-- A Go `error` value: either a message built by `errors.New` / `fmt.Errorf`, or the
`*strconv.NumError` of a failed numeric conversion (`range = true` for `ErrRange`, otherwise
`ErrSyntax`). -/
inductive GoError where
  | msg (text : String)
  | num (fn : String) (input : String) (range : Bool)
  deriving DecidableEq, Repr

/-- The text of `err.Error()`. `quote` is `strconv.Quote`, which `NumError.Error` applies to the
offending input. -/
def GoError.Error (quote : String → String) : GoError → String
  | .msg text => text
  | .num fn input range =>
      "strconv." ++ fn ++ ": parsing " ++ quote input ++ ": " ++
        (if range then "value out of range" else "invalid syntax")

/-! ## `strconv.ParseInt(s, 10, 64)` -/

/-- The largest `uint64`. -/
def maxUint64 : Nat := 2 ^ 64 - 1

/-- The smallest `int64`. -/
def minInt64 : Int := -(2 ^ 63)

/-- The largest `int64`. -/
def maxInt64 : Int := 2 ^ 63 - 1

/-- Two's-complement wrap-around of an integer into the `int64` range. -/
def wrapInt64 (z : Int) : Int := (z + 2 ^ 63) % 2 ^ 64 - 2 ^ 63

/-- The digit loop of `strconv.ParseUint` for base 10 and 64 bits, started with accumulator `n`:
`Except.error false` is a syntax error, `Except.error true` a range error. A byte that is not
`'0'..'9'` is a syntax error (a letter is a digit of value at least 10, an underscore is only
allowed for base 0); the accumulator overflow tests are those of the source. -/
def parseUintLoop : List Char → Nat → Except Bool Nat
  | [], n => .ok n
  | c :: cs, n =>
      if '0' ≤ c ∧ c ≤ '9' then
        if n ≥ maxUint64 / 10 + 1 then .error true
        else
          let n1 := n * 10 + (c.toNat - '0'.toNat)
          if n1 > maxUint64 then .error true else parseUintLoop cs n1
      else .error false

/-- The function `strconv.ParseUint(s, 10, 64)` on the characters of `s`. -/
def parseUint (s : List Char) : Except Bool Nat :=
  if s = [] then .error false else parseUintLoop s 0

/-- The function `strconv.ParseInt(s, 10, 64)`: the returned number together with the error. On a
syntax error the number is 0, on a range error it is the nearest bound. -/
def ParseInt (s : String) : Int × Option GoError :=
  match s.data with
  | [] => (0, some (.num "ParseInt" s false))
  | c :: cs =>
      let neg := c = '-'
      let digits := if c = '+' ∨ c = '-' then cs else c :: cs
      match parseUint digits with
      | .error false => (0, some (.num "ParseInt" s false))
      | .error true =>
          -- `ParseUint` returned `maxVal`, which is beyond both cutoffs
          if neg then (minInt64, some (.num "ParseInt" s true))
          else (maxInt64, some (.num "ParseInt" s true))
      | .ok un =>
          if ¬ neg ∧ un ≥ 2 ^ 63 then (maxInt64, some (.num "ParseInt" s true))
          else if neg ∧ un > 2 ^ 63 then (minInt64, some (.num "ParseInt" s true))
          else (if neg then -(un : Int) else (un : Int), none)

/-! ## Options -/

/-- The fields shared by every option. -/
structure BaseOption where
  configName : String
  required : Bool
  shortInfo : String
  longInfo : String
  needRec : Bool
  deriving DecidableEq, Repr

/-- The method `BaseOption.Init`: fill in the name and the label from the registry index. -/
def BaseOption.Init (this : BaseOption) (index : String) : BaseOption :=
  let this := if this.configName = "" then { this with configName := index } else this
  if this.shortInfo = "" then { this with shortInfo := index } else this

/-- The method `BaseOption.FormHaveData`. -/
def BaseOption.FormHaveData (_this : BaseOption) (form : List String) : Bool :=
  match form with
  | [] => false
  | v :: _ => if v.length = 0 then false else true

/-- The method `BaseOption.Form2String`: the first submitted value. -/
def BaseOption.Form2String (_this : BaseOption) (form : List String) : Except GoError String :=
  match form with
  | [] => .error (.msg "提交数据出错")
  | v :: _ => .ok v

/-- An integer option: `max = 0` means that no maximum is checked. -/
structure Int64Option extends BaseOption where
  defaultVal : String
  min : Int
  max : Int
  deriving DecidableEq, Repr

/-- The method `Int64Option.Form2Int64`: the number and the error, as the source returns them
(`num` keeps its zero value when `Form2String` fails). -/
def Int64Option.Form2Int64 (this : Int64Option) (form : List String) : Int × Option GoError :=
  match this.toBaseOption.Form2String form with
  | .error e => (0, some e)
  | .ok str => ParseInt str

/-- The method `Int64Option.Form2Config`. -/
def Int64Option.Form2Config (this : Int64Option) (form : List String) (_uid : Nat) :
    Except GoError String :=
  match this.Form2Int64 form with
  | (_, some e) => .error e
  | (num, none) =>
      if num < this.min then
        .error (.msg ("设置的值" ++ toString num ++ "小于最小值" ++ toString this.min))
      else if this.max ≠ 0 ∧ num > this.max then
        .error (.msg ("设置的值" ++ toString num ++ "大于最大值" ++ toString this.max))
      else .ok (this.configName ++ "=" ++ toString num)


/-! ## `float64` -/

/-- A `float64` value, modelled exactly: `fin n k` is the finite value `n / 2 ^ k` (every finite
`float64` has this form), `inf neg` is an infinity and `nan` a NaN. The sign of a zero is not
kept: the code below only compares zeros and converts them to `int64`, where both zeros behave
alike. -/
inductive F64 where
  | fin (n : Int) (k : Nat)
  | inf (neg : Bool)
  | nan
  deriving DecidableEq, Repr

namespace F64

/-- The rational number a finite value stands for (0 for an infinity or a NaN). -/
def val : F64 → ℚ
  | fin n k => (n : ℚ) / 2 ^ k
  | _ => 0

/-- Whether the value is finite. -/
def isFinite : F64 → Bool
  | fin _ _ => true
  | _ => false

/-- The comparison `a == b` of IEEE 754: a NaN equals nothing. -/
def eq : F64 → F64 → Bool
  | fin n k, fin m j => decide (n * 2 ^ j = m * 2 ^ k)
  | inf a, inf b => a == b
  | _, _ => false

/-- The comparison `a != b` of IEEE 754. -/
def ne (a b : F64) : Bool := !(a.eq b)

/-- The constant `0`. -/
def zero : F64 := fin 0 0

/-- The constant `0.5`. -/
def half : F64 := fin 1 1

/-- The function `math.Modf`: the integer part, truncated toward zero, and the fractional part,
which has the sign of the argument. `Modf(±Inf) = ±Inf, NaN` and `Modf(NaN) = NaN, NaN`. -/
def Modf : F64 → F64 × F64
  | fin n k => (fin (n.tdiv (2 ^ k)) 0, fin (n.tmod (2 ^ k)) k)
  | inf neg => (inf neg, nan)
  | nan => (nan, nan)

/-- The conversion `int64(f)`: truncation toward zero. A value outside the `int64` range, an
infinity and a NaN give `-2^63`, as the conversion instruction of amd64 does (the language leaves
this case to the implementation). -/
def toInt64 : F64 → Int
  | fin n k =>
      let z := n.tdiv (2 ^ k)
      if minInt64 ≤ z ∧ z ≤ maxInt64 then z else minInt64
  | _ => minInt64

/-- Rounding of the non-negative rational `a / b` to the nearest natural number, ties to even. -/
def roundHalfEven (a b : Nat) : Nat :=
  let q := a / b
  let r := a % b
  if 2 * r < b then q
  else if 2 * r > b then q + 1
  else if q % 2 = 0 then q else q + 1

/-- The decimal digits of `m`, padded with zeros on the left to six digits. -/
def pad6 (m : Nat) : String :=
  String.mk (List.replicate (6 - (toString m).length) '0') ++ toString m

/-- The verb `%f` of `fmt.Sprintf`: fixed-point notation with six fractional digits, the exact
value rounded to nearest, ties to even. -/
def fmtF : F64 → String
  | fin n k =>
      let m := roundHalfEven (n.natAbs * 10 ^ 6) (2 ^ k)
      (if n < 0 then "-" else "") ++ toString (m / 10 ^ 6) ++ "." ++ pad6 (m % 10 ^ 6)
  | inf neg => if neg then "-Inf" else "+Inf"
  | nan => "NaN"

end F64

/-! ## The collaborators outside this file -/

/-- What the code takes from outside this source file: the server configuration, the user store,
the file-system helper `dir_check_creat` (its result is the error it returns, if any) and the
library functions `strconv.ParseFloat(·, 64)`, `strconv.Quote` and `filepath.Join`. -/
structure Env where
  Ffmpeg : String
  Google_map_key : String
  usersDir : String
  dir_check_creat : String → Bool → Option GoError
  ParseFloat : String → Except GoError F64
  Quote : String → String
  Join : List String → String

/-! ## The other option variants -/

/-- A decimal option. -/
structure Float64Option extends BaseOption where
  deriving DecidableEq, Repr

/-- The method `Float64Option.Form2Float64`. -/
def Float64Option.Form2Float64 (env : Env) (this : Float64Option) (form : List String) :
    Except GoError F64 :=
  match this.toBaseOption.Form2String form with
  | .error e => .error e
  | .ok str => env.ParseFloat str

/-- The time-zone option of the photos. -/
structure PhotosTimezoneOption extends Float64Option where
  deriving DecidableEq, Repr

/-- The method `PhotosTimezoneOption.Float642Config`: the config line and the error, as the
source returns them (the line is empty when there is an error). -/
def PhotosTimezoneOption.Float642Config (this : PhotosTimezoneOption) (num : F64) :
    String × Option GoError :=
  let fi := (F64.Modf num).1
  let f := (F64.Modf num).2
  let i := fi.toInt64
  if i < -12 ∨ i > 13 ∨ (f.ne F64.zero ∧ f.ne F64.half) then
    ("", some (.msg "格式不对"))
  else if f.eq F64.zero then
    (this.configName ++ "=" ++ toString i, none)
  else
    (this.configName ++ "=" ++ F64.fmtF num, none)

/-- The method `PhotosTimezoneOption.Form2Config`. -/
def PhotosTimezoneOption.Form2Config (env : Env) (this : PhotosTimezoneOption)
    (form : List String) (_uid : Nat) : Except GoError String :=
  match this.toFloat64Option.Form2Float64 env form with
  | .error e => .error e
  | .ok num =>
      match this.Float642Config num with
      | (_, some e) => .error e
      | (config, none) => .ok config

/-- A checkbox option. -/
structure BoolOption extends BaseOption where
  defaultVal : Bool
  deriving DecidableEq, Repr

/-- The method `BoolOption.FormHaveData`: a checkbox always has data. -/
def BoolOption.FormHaveData (_this : BoolOption) (_form : List String) : Bool := true

/-- The option that adds the photos of the user to the video. -/
structure PhotosOption extends BoolOption where
  deriving DecidableEq, Repr

/-- The method `PhotosOption.Form2Config`: with an empty value list it returns the empty line and
no error; otherwise it makes sure the photo directory of the user exists and names it. -/
def PhotosOption.Form2Config (env : Env) (this : PhotosOption) (form : List String) (uid : Nat) :
    Except GoError String :=
  match form with
  | [] => .ok ""
  | _ :: _ =>
      let photos_dir := env.Join [env.usersDir, toString uid, "photos"]
      match env.dir_check_creat photos_dir true with
      | some e => .error e
      | none => .ok (this.configName ++ "=" ++ photos_dir)

/-- The interface `MakevideoOptioner`: the option variants that are registered. -/
inductive MakevideoOptioner where
  | int64 (o : Int64Option)
  | photosTimezone (o : PhotosTimezoneOption)
  | photos (o : PhotosOption)
  deriving DecidableEq, Repr

namespace MakevideoOptioner

/-- The embedded `BaseOption` of a registered option. -/
def toBaseOption : MakevideoOptioner → BaseOption
  | int64 o => o.toBaseOption
  | photosTimezone o => o.toBaseOption
  | photos o => o.toBaseOption

/-- The method `Init`, which every variant inherits from `BaseOption`. -/
def Init (index : String) : MakevideoOptioner → MakevideoOptioner
  | int64 o => int64 { o with toBaseOption := o.toBaseOption.Init index }
  | photosTimezone o =>
      photosTimezone { toFloat64Option := { toBaseOption := o.toBaseOption.Init index } }
  | photos o =>
      photos { toBoolOption := { o.toBoolOption with toBaseOption := o.toBaseOption.Init index } }

/-- The method `GetshortInfo`. -/
def GetshortInfo (option : MakevideoOptioner) : String := option.toBaseOption.shortInfo

/-- The method `GetlongInfo`. -/
def GetlongInfo (option : MakevideoOptioner) : String := option.toBaseOption.longInfo

/-- The method `Getrequired`. -/
def Getrequired (option : MakevideoOptioner) : Bool := option.toBaseOption.required

/-- The method `FormHaveData`: the one of `BaseOption`, overridden by `BoolOption`. -/
def FormHaveData : MakevideoOptioner → List String → Bool
  | int64 o, form => o.toBaseOption.FormHaveData form
  | photosTimezone o, form => o.toBaseOption.FormHaveData form
  | photos o, form => o.toBoolOption.FormHaveData form

/-- The method `Form2Config`, dispatched on the variant. -/
def Form2Config (env : Env) : MakevideoOptioner → List String → Nat → Except GoError String
  | int64 o, form, uid => o.Form2Config form uid
  | photosTimezone o, form, uid => o.Form2Config env form uid
  | photos o, form, uid => o.Form2Config env form uid

end MakevideoOptioner

/-! ## The registry -/

/-- The package variables `makevideoOptions` (a map, here the list of its entries), `show_index`
and `photosTimezoneOption`. -/
structure Registry where
  makevideoOptions : List (String × MakevideoOptioner)
  show_index : List String
  photosTimezoneOption : PhotosTimezoneOption

/-- The entries that `makevideoOptionsInit` stores, before the `Init` loop. `photosLink` is
`serverConf.DomainDir + web_photos`. -/
def makevideoOptionsRaw (photosLink : String) : List (String × MakevideoOptioner) :=
  [ ("video_width", .int64
      { configName := "", required := true, shortInfo := "视频宽度",
        longInfo := "google map免费版的限制，最大640。", needRec := false,
        defaultVal := "640", min := 1, max := 640 }),
    ("video_height", .int64
      { configName := "", required := true, shortInfo := "视频高度",
        longInfo := "google map免费版的限制，最大640。", needRec := false,
        defaultVal := "640", min := 1, max := 640 }),
    ("video_border", .int64
      { configName := "", required := true, shortInfo := "边框宽度",
        longInfo := "视频中轨迹到边框的距离", needRec := false,
        defaultVal := "10", min := 1, max := 640 }),
    ("video_limit_secs", .int64
      { configName := "", required := false, shortInfo := "生成视频的最大秒数",
        longInfo := "程序将自动设置选项video_fps, speed, photos_show_secs 和 trackinfo_show_sec。友情提醒：微信朋友圈视频限制时间为10秒。",
        needRec := false, defaultVal := "", min := 3, max := 0 }),
    ("photos_dir", .photos
      { configName := "", required := false, shortInfo := "在视频中增加照片",
        longInfo := "视频中插入照片的文件或者目录，软件会根据" ++
          ("<a href=\"" ++ photosLink ++ "\">图片管理</a>") ++
          "中照片的exif信息中的拍照时间插入视频。<br>注意exif信息有可能在转换过程中被删除。<br>微信传输图片需要使用原图，否则exif信息将被删除。<br>时间不在轨迹时间中的图片将不会被插入视频。",
        needRec := false, defaultVal := true }),
    ("photos_timezone", .photosTimezone
      { configName := "", required := false, shortInfo := "照片所在的时区值",
        longInfo := "因为轨迹文件提供的时间是UTC时间，而exif信息中的拍照时间是当地时间，这就需要有个转换过程。<br>格式举例:8或者-11或者3.5。<br>如果不设置则自动从轨迹信息中取得时区信息。此处是不是很高科技，来点掌声吧！",
        needRec := false }),
    ("photos_show_secs", .int64
      { configName := "", required := false, shortInfo := "照片显示秒数",
        longInfo := "不设置则自动被设置为2秒。", needRec := false,
        defaultVal := "2", min := 1, max := 0 }) ]

/-- The function `makevideoOptionsInit`: the entries in the order of their registration, each
initialised with its key; `show_index` lists the keys in the same order; the variable
`photosTimezoneOption` points to the entry registered under `photos_timezone`. -/
def makevideoOptionsInit (photosLink : String) : Registry :=
  let options := (makevideoOptionsRaw photosLink).map fun e => (e.1, e.2.Init e.1)
  { makevideoOptions := options
    show_index := ["video_width", "video_height", "video_border", "video_limit_secs",
      "photos_dir", "photos_timezone", "photos_show_secs"]
    photosTimezoneOption :=
      match options.lookup "photos_timezone" with
      | some (.photosTimezone o) => o
      | _ => { configName := "", required := false, shortInfo := "", longInfo := "",
               needRec := false } }

/-! ## The config assembly of `makevideoHandler` -/

/-- The submitted form `r.Form`: a map from keys to value lists, as the list of its entries. The
handler fills it with `r.ParseForm()` only, which appends each value to the list of its key, so
that in a form the handler receives every value list is non-empty. -/
abbrev Form := List (String × List String)

/-- The statement `delete(r.Form, index)`. -/
def Form.delete (form : Form) (index : String) : Form :=
  form.filter fun e => e.1 != index

/-- How the handler leaves the assembly early: `httpShowError(w, msg)` followed by `return`, or a
run-time panic (a failed type assertion). -/
inductive Abort where
  | showError (msg : String)
  | panic
  deriving DecidableEq, Repr

/-- The variables the loop over the required options updates. -/
structure ReqState where
  config : String
  form : Form
  video_width : Int
  video_height : Int
  video_border : Int
  deriving DecidableEq, Repr

/-- The lines the handler writes before the options: the head of the `[required]` block. -/
def configHead (env : Env) (gpx_name : String) : String :=
  "[required]\n" ++ ("ffmpeg=" ++ env.Ffmpeg ++ "\n") ++
    ("google_map_key=" ++ env.Google_map_key ++ "\n") ++
    ("gps_file=" ++ gpx_name ++ "\n") ++ "google_map_type=satellite\n"

/-- The test `index == "video_width" || index == "video_height" || index == "video_border"`. -/
def isVideoKey (index : String) : Prop :=
  index = "video_width" ∨ index = "video_height" ∨ index = "video_border"

instance (index : String) : Decidable (isVideoKey index) :=
  inferInstanceAs (Decidable (_ ∨ _))

/-- One iteration of `for index, option := range makevideoOptions` (the loop body of the required
block). The `switch` assigns the re-parsed number to the variable the key names. -/
def requiredStep (env : Env) (uid : Nat) (st : ReqState) (index : String)
    (option : MakevideoOptioner) : Except Abort ReqState :=
  if ¬ option.Getrequired then .ok st
  else
    match st.form.lookup index with
    | none => .error (.showError (option.GetshortInfo ++ "没有设置"))
    | some form =>
        match option.Form2Config env form uid with
        | .error err => .error (.showError (option.GetshortInfo ++ err.Error env.Quote))
        | .ok c =>
            if isVideoKey index then
              match option with
              | .int64 o =>
                  let num := (o.Form2Int64 form).1
                  .ok { config := st.config ++ (c ++ "\n")
                        form := st.form.delete index
                        video_width := if index = "video_width" then num else st.video_width
                        video_height := if index = "video_height" then num else st.video_height
                        video_border := if index = "video_border" then num else st.video_border }
              | _ => .error .panic
            else .ok { st with config := st.config ++ (c ++ "\n"), form := st.form.delete index }

/-- The loop over the required options, for the iteration order `options` of the map. -/
def requiredLoop (env : Env) (uid : Nat) :
    List (String × MakevideoOptioner) → ReqState → Except Abort ReqState
  | [], st => .ok st
  | (index, option) :: rest, st =>
      match requiredStep env uid st index option with
      | .error a => .error a
      | .ok st1 => requiredLoop env uid rest st1

/-- The special check for `video_width`, `video_height` and `video_border`. -/
def crossCheck (st : ReqState) : Except Abort ReqState :=
  let b_tmp := wrapInt64 (st.video_border * 2)
  if b_tmp ≥ st.video_width ∨ b_tmp ≥ st.video_height then
    .error (.showError "你把边框宽度设置这么大浏览器会爆炸的")
  else .ok st

/-- The variables the loop over the submitted keys updates. -/
structure OptState where
  config : String
  gotPhotosTimezoneOption : Bool
  deriving DecidableEq, Repr

/-- One iteration of `for index, form := range r.Form` (the loop body of the optional block). -/
def optionalStep (env : Env) (uid : Nat) (options : List (String × MakevideoOptioner))
    (st : OptState) (index : String) (form : List String) : Except Abort OptState :=
  match options.lookup index with
  | none => .ok st
  | some option =>
      if ¬ option.FormHaveData form then .ok st
      else
        match option.Form2Config env form uid with
        | .error err => .error (.showError (option.GetshortInfo ++ err.Error env.Quote))
        | .ok c =>
            let st := { st with config := st.config ++ (c ++ "\n") }
            .ok (if index = "photos_timezone" then { st with gotPhotosTimezoneOption := true }
                 else st)

/-- The loop over the submitted keys that remain, for the iteration order `form` of the map. -/
def optionalLoop (env : Env) (uid : Nat) (options : List (String × MakevideoOptioner)) :
    Form → OptState → Except Abort OptState
  | [], st => .ok st
  | (index, form) :: rest, st =>
      match optionalStep env uid options st index form with
      | .error a => .error a
      | .ok st1 => optionalLoop env uid options rest st1

/-! ## The time difference of the activity -/

namespace F64

/-- The number of binary digits of `n`; `fuel` bounds the number of halvings, and `n` itself is
enough fuel. -/
def bitLen : Nat → Nat → Nat
  | 0, _ => 0
  | fuel + 1, n => if n = 0 then 0 else bitLen fuel (n / 2) + 1

/-- The binary exponent of the positive rational `a / q`: the `e` with
`2 ^ e ≤ a / q < 2 ^ (e + 1)`. The difference of the digit counts is `e` or `e + 1`. -/
def exponent (a q : Nat) : Int :=
  let e0 : Int := (bitLen a a : Int) - (bitLen q q : Int)
  if a * 2 ^ (-e0).toNat < q * 2 ^ e0.toNat then e0 - 1 else e0

/-- Rounding of the rational `p / q` (`q > 0`) to the nearest `float64`, ties to even: 53
significant bits `m` at the unit `2 ^ t`, the smallest unit being that of the subnormal numbers
(`2 ^ (-1074)`), and an infinity when the rounded value reaches `2 ^ 1024`, that is when
`m * 2 ^ t` with `m ≤ 2 ^ 53` has `t > 971`, or `t = 971` and `m = 2 ^ 53`. -/
def round (p : Int) (q : Nat) : F64 :=
  if p = 0 then fin 0 0
  else
    let a := p.natAbs
    let t : Int := max (exponent a q) (-1022) - 52
    let m := roundHalfEven (a * 2 ^ (-t).toNat) (q * 2 ^ t.toNat)
    if t > 971 ∨ (t = 971 ∧ m ≥ 2 ^ 53) then inf (decide (p < 0))
    else if t ≥ 0 then fin (p.sign * (m * 2 ^ t.toNat : Nat)) 0
    else fin (p.sign * (m : Int)) (-t).toNat

/-- The conversion `float64(z)` of an integer. -/
def ofInt (z : Int) : F64 := round z 1

/-- The sum `a + b` of IEEE 754. -/
def add : F64 → F64 → F64
  | fin n k, fin m j => round (n * 2 ^ j + m * 2 ^ k) (2 ^ (k + j))
  | fin _ _, inf b => inf b
  | inf a, fin _ _ => inf a
  | inf a, inf b => if a = b then inf a else nan
  | _, _ => nan

/-- The quotient `a / c` of IEEE 754 for a positive integer constant `c` that is a `float64`. -/
def divConst (c : Nat) : F64 → F64
  | fin n k => round n (2 ^ k * c)
  | inf a => inf a
  | nan => nan

end F64

/-- The constant `time.Hour`, in nanoseconds. -/
def Hour : Int := 3600000000000

/-- The method `Time.Sub` on two instants given in nanoseconds: the difference as a
`time.Duration`, which is an `int64` and saturates. -/
def TimeSub (t u : Int) : Int :=
  if t - u < minInt64 then minInt64 else if t - u > maxInt64 then maxInt64 else t - u

/-- The method `Duration.Hours`: `hour := d / Hour; nsec := d % Hour;
float64(hour) + float64(nsec)/(60*60*1e9)`. -/
def Hours (d : Int) : F64 :=
  let hour := d.tdiv Hour
  let nsec := d.tmod Hour
  F64.add (F64.ofInt hour) (F64.divConst 3600000000000 (F64.ofInt nsec))

/-- The two fields of the activity the handler reads, as instants in nanoseconds. -/
structure Activity where
  StartDate : Int
  StartDateLocal : Int
  deriving DecidableEq, Repr

/-- The lines 405 to 408 of the handler: when no time zone was submitted, the line that
`Float642Config` returns for the time difference is appended; the error it returns is dropped. -/
def appendTimezone (ptz : PhotosTimezoneOption) (activity : Activity) (st : OptState) : String :=
  if ¬ st.gotPhotosTimezoneOption then
    let c := (ptz.Float642Config (Hours (TimeSub activity.StartDateLocal activity.StartDate))).1
    st.config ++ (c ++ "\n")
  else st.config

/-- The config assembly of `makevideoHandler`, from `config := "[required]\n"` to the line
`output_dir=`; `form` is `r.Form` after `delete(r.Form, "truck")`. The required block is built
for the iteration order `reg.makevideoOptions`; then come the special check, the optional block
for the iteration order of the remaining form, the request for the activity (`activity` is its
result) and the derived time zone. -/
def assembleConfig (env : Env) (reg : Registry) (uid : Nat) (gpx_name output_dir : String)
    (form : Form) (activity : Except GoError Activity) : Except Abort String :=
  match requiredLoop env uid reg.makevideoOptions
      { config := configHead env gpx_name, form := form,
        video_width := 0, video_height := 0, video_border := 0 } with
  | .error a => .error a
  | .ok st =>
      match crossCheck st with
      | .error a => .error a
      | .ok st =>
          match optionalLoop env uid reg.makevideoOptions st.form
              { config := st.config ++ "[optional]\n", gotPhotosTimezoneOption := false } with
          | .error a => .error a
          | .ok ost =>
              match activity with
              | .error err => .error (.showError ("strava出错:" ++ err.Error env.Quote))
              | .ok activity =>
                  .ok (appendTimezone reg.photosTimezoneOption activity ost ++
                    ("output_dir=" ++ output_dir ++ "\n"))

/-! ## The job outcome: `makeVideo` -/

/-- The part of the file system `makeVideo` touches: the working directory `output_dir`
(`none` when it does not exist, otherwise its files with their contents) and the files of its
parent directory. -/
structure DirState where
  work : Option (List (String × String))
  parent : List (String × String)
  deriving DecidableEq, Repr

/-- The result of `cmd.CombinedOutput()`: the file system the process leaves, its output and the
error. -/
structure CmdResult where
  fs : DirState
  out : String
  err : Option GoError

/-- The call `os.Rename(output_dir/v.mp4, output_dir/../v.mp4)`: it fails when the source file
does not exist; otherwise the file leaves the working directory and replaces any `v.mp4` of the
parent directory. -/
def osRenameVideo (fs : DirState) : DirState × Option GoError :=
  match fs.work with
  | none => (fs, some (.msg "rename: no such file or directory"))
  | some files =>
      match files.lookup "v.mp4" with
      | none => (fs, some (.msg "rename: no such file or directory"))
      | some content =>
          ({ work := some (files.filter fun e => e.1 != "v.mp4"),
             parent := ("v.mp4", content) :: fs.parent.filter fun e => e.1 != "v.mp4" }, none)

/-- The call `os.Create(output_dir/../error)`: the file is created, or truncated, empty. -/
def osCreateError (fs : DirState) : DirState :=
  { fs with parent := ("error", "") :: fs.parent.filter fun e => e.1 != "error" }

/-- The call `os.RemoveAll(output_dir)`. -/
def osRemoveAll (fs : DirState) : DirState := { fs with work := none }

/-- The function `strings.Contains`. -/
def stringsContains (s substr : String) : Bool := decide (substr.data <:+: s.data)

/-- The function `makeVideo`. `cmd` is the external process; the deferred `os.RemoveAll` runs on
every path. -/
def makeVideo (cmd : DirState → CmdResult) (fs : DirState) : DirState :=
  let r := cmd fs
  osRemoveAll <|
    match r.err with
    | some _ => r.fs
    | none =>
        if stringsContains r.out "视频生成成功" then (osRenameVideo r.fs).1
        else osCreateError r.fs

/-! ## Decimal integers -/

/-- The value of a digit string read in base 10, continuing from `acc`. -/
def decimalFold (acc : Nat) (ds : List Char) : Nat :=
  ds.foldl (fun n c => n * 10 + (c.toNat - '0'.toNat)) acc

/-- The spec's words "`s` parses as a base-10 signed 64-bit integer `n`": `s` is an optional sign
followed by at least one decimal digit, and the number written lies in the `int64` range. -/
def ParsesAsInt64 (s : String) (n : Int) : Prop :=
  ∃ (neg : Bool) (ds : List Char),
    ds ≠ [] ∧ (∀ c ∈ ds, '0' ≤ c ∧ c ≤ '9') ∧
    ((neg = false ∧ (s.data = ds ∨ s.data = '+' :: ds)) ∨ (neg = true ∧ s.data = '-' :: ds)) ∧
    n = (if neg then -(decimalFold 0 ds : Int) else (decimalFold 0 ds : Int)) ∧
    -(2 ^ 63) ≤ n ∧ n ≤ 2 ^ 63 - 1

/-- The spec's words "a whole number or a whole number plus exactly one half". -/
def F64.WholeOrHalf (x : F64) : Prop :=
  ∃ z : Int, x.val = z ∨ x.val = z + 1 / 2

/-- A sample of the collaborators, for evaluating the code at concrete inputs: every directory can
be created, `ParseFloat` knows the texts `3.5` and `-3.5`, `Quote` adds the quotation marks and
`Join` puts a slash between the elements. -/
def sampleEnv : Env where
  Ffmpeg := "/usr/bin/ffmpeg"
  Google_map_key := "KEY"
  usersDir := "/users"
  dir_check_creat := fun _ _ => none
  ParseFloat := fun s =>
    if s = "3.5" then .ok (.fin 7 1)
    else if s = "-3.5" then .ok (.fin (-7) 1)
    else .error (.num "ParseFloat" s false)
  Quote := fun s => "\"" ++ s ++ "\""
  Join := fun l => "/".intercalate l

/-! ## Reading the two loops off the submitted form

The loops of the handler thread their state through the iterations. The functions below say what
one option or one submitted key contributes, as a function of the form alone; the theorems relate
the loops to them. -/

/-- The variable among `video_width`, `video_height`, `video_border` that the key names (the last
one for any other key). -/
def ReqState.video (st : ReqState) (index : String) : Int :=
  if index = "video_width" then st.video_width
  else if index = "video_height" then st.video_height
  else st.video_border

/-- How the iteration for one option of the required loop fails on the form, if it does: the key
is missing, `Form2Config` returns an error, or the type assertion panics. -/
def requiredFailure (env : Env) (uid : Nat) (form : Form) (index : String)
    (option : MakevideoOptioner) : Option Abort :=
  if ¬ option.Getrequired then none
  else
    match form.lookup index with
    | none => some (.showError (option.GetshortInfo ++ "没有设置"))
    | some values =>
        match option.Form2Config env values uid with
        | .error err => some (.showError (option.GetshortInfo ++ err.Error env.Quote))
        | .ok _ =>
            if isVideoKey index then
              match option with
              | .int64 _ => none
              | _ => some .panic
            else none

/-- The line that `Form2Config` returns for the values submitted under the key (empty when there
is none). -/
def requiredLine (env : Env) (uid : Nat) (form : Form) (index : String)
    (option : MakevideoOptioner) : String :=
  match form.lookup index with
  | none => ""
  | some values =>
      match option.Form2Config env values uid with
      | .error _ => ""
      | .ok c => c

/-- The lines of the required options, in the order of the iteration. -/
def requiredLines (env : Env) (uid : Nat) (form : Form)
    (options : List (String × MakevideoOptioner)) : List String :=
  (options.filter fun e => e.2.Getrequired).map fun e => requiredLine env uid form e.1 e.2

/-- The statement `config += c + "\n"` for each of the lines in turn. -/
def appendLines (config : String) (lines : List String) : String :=
  lines.foldl (fun acc c => acc ++ (c ++ "\n")) config

/-- The option registered as `video_width`, after `Init`. -/
def videoWidthOption : Int64Option :=
  { configName := "video_width", required := true, shortInfo := "视频宽度",
    longInfo := "google map免费版的限制，最大640。", needRec := false,
    defaultVal := "640", min := 1, max := 640 }

/-- The option registered as `video_height`, after `Init`. -/
def videoHeightOption : Int64Option :=
  { configName := "video_height", required := true, shortInfo := "视频高度",
    longInfo := "google map免费版的限制，最大640。", needRec := false,
    defaultVal := "640", min := 1, max := 640 }

/-- The option registered as `video_border`, after `Init`. -/
def videoBorderOption : Int64Option :=
  { configName := "video_border", required := true, shortInfo := "边框宽度",
    longInfo := "视频中轨迹到边框的距离", needRec := false,
    defaultVal := "10", min := 1, max := 640 }

/-! ## The track construction of `makevideoHandler` -/

/-- The type `gpx.NullableFloat64`: a number and the flag that says it is present. -/
structure NullableFloat64 where
  data : F64
  notNull : Bool
  deriving DecidableEq, Repr

/-- The function `gpx.NewNullableFloat64`: the number, marked as present. -/
def NewNullableFloat64 (data : F64) : NullableFloat64 := { data := data, notNull := true }

/-- The fields of a `gpx.GPXPoint` the handler fills in; the timestamp is an instant in
nanoseconds. -/
structure GPXPoint where
  Latitude : F64
  Longitude : F64
  Elevation : NullableFloat64
  Timestamp : Int
  deriving DecidableEq, Repr

/-- The three streams the handler requests: `Time.Data` (seconds, of type `int`, taken to be
64 bits wide), `Location.Data` (one list of numbers per entry) and `Elevation.Data`. -/
structure StreamSet where
  Time : List Int
  Location : List (List F64)
  Elevation : List F64
  deriving DecidableEq, Repr

/-- The constant `time.Second`, in nanoseconds. -/
def Second : Int := 1000000000

/-- The point the loop appends for the index `i`: the timestamp is
`StartDate.Add(time.Duration(Time.Data[i]) * time.Second)`, where the product is an `int64`. -/
def trackPoint (StartDate : Int) (streams : StreamSet) (i : Nat) : GPXPoint :=
  { Latitude := (streams.Location.getD i []).getD 0 F64.zero
    Longitude := (streams.Location.getD i []).getD 1 F64.zero
    Elevation := NewNullableFloat64 (streams.Elevation.getD i F64.zero)
    Timestamp := StartDate + wrapInt64 (streams.Time.getD i 0 * Second) }

/-- The loop `for i := 0; i < streams_len; i++` over the indices that remain; `gpx_file` is the
list of the points appended so far. -/
def trackLoop (StartDate : Int) (streams : StreamSet) :
    List Nat → List GPXPoint → Except Abort (List GPXPoint)
  | [], gpx_file => .ok gpx_file
  | i :: rest, gpx_file =>
      if (streams.Location.getD i []).length ≠ 2 then
        .error (.showError "strava提供轨迹数据有错")
      else trackLoop StartDate streams rest (gpx_file ++ [trackPoint StartDate streams i])

/-- The track construction of `makevideoHandler`: the check of the three lengths, then the loop
over the indices `0 .. streams_len - 1`. -/
def buildTrack (StartDate : Int) (streams : StreamSet) : Except Abort (List GPXPoint) :=
  let streams_len := streams.Time.length
  if streams_len ≠ streams.Location.length ∨ streams_len ≠ streams.Elevation.length then
    .error (.showError "strava提供轨迹数据有错")
  else trackLoop StartDate streams (List.range streams_len) []

/-- An iteration order of the option map other than the order of registration: `video_height`
comes first, then `video_width`, then the rest. -/
def heightFirstOrder : List (String × MakevideoOptioner) :=
  match (makevideoOptionsInit "").makevideoOptions with
  | a :: b :: rest => b :: a :: rest
  | l => l

/-! # Theorems -/

/-! ## `strconv.ParseInt` -/

theorem decimalFold_cons (acc : Nat) (c : Char) (cs : List Char) :
    decimalFold acc (c :: cs) = decimalFold (acc * 10 + (c.toNat - '0'.toNat)) cs := rfl

theorem le_decimalFold (ds : List Char) (acc : Nat) : acc ≤ decimalFold acc ds := by
  induction ds generalizing acc with
  | nil => exact Nat.le_refl _
  | cons c cs ih =>
      rw [decimalFold_cons]
      exact Nat.le_trans (by omega) (ih _)

/-- The digit loop succeeds exactly on digit strings whose value fits into 64 bits. -/
theorem parseUintLoop_ok_iff (ds : List Char) (acc v : Nat) :
    parseUintLoop ds acc = .ok v ↔
      (∀ c ∈ ds, '0' ≤ c ∧ c ≤ '9') ∧ v = decimalFold acc ds ∧
        (ds ≠ [] → decimalFold acc ds ≤ maxUint64) := by
  induction ds generalizing acc with
  | nil => simp [parseUintLoop, decimalFold, eq_comm]
  | cons c cs ih =>
      rw [decimalFold_cons]
      unfold parseUintLoop
      by_cases hc : '0' ≤ c ∧ c ≤ '9'
      · rw [if_pos hc]
        have hmono := le_decimalFold cs (acc * 10 + (c.toNat - '0'.toNat))
        by_cases h1 : acc ≥ maxUint64 / 10 + 1
        · rw [if_pos h1]
          simp only [maxUint64] at h1 hmono ⊢
          constructor
          · intro h; cases h
          · rintro ⟨_, _, h3⟩
            have := h3 (by simp)
            omega
        · rw [if_neg h1]
          by_cases h2 : acc * 10 + (c.toNat - '0'.toNat) > maxUint64
          · simp only [h2, if_true]
            constructor
            · intro h; cases h
            · rintro ⟨_, _, h3⟩
              have := h3 (by simp)
              omega
          · simp only [h2, if_false]
            rw [ih]
            constructor
            · rintro ⟨ha, hv, hb⟩
              refine ⟨?_, hv, ?_⟩
              · intro x hx
                rcases List.mem_cons.1 hx with rfl | hx
                · exact hc
                · exact ha x hx
              · intro _
                by_cases hcs : cs = []
                · subst hcs
                  simpa [decimalFold] using Nat.le_of_not_gt h2
                · exact hb hcs
            · rintro ⟨ha, hv, hb⟩
              exact ⟨fun x hx => ha x (List.mem_cons_of_mem _ hx), hv, fun _ => hb (by simp)⟩
      · rw [if_neg hc]
        constructor
        · intro h; cases h
        · rintro ⟨ha, _⟩
          exact absurd (ha c (List.mem_cons_self _ _)) hc

theorem parseUint_ok_iff (ds : List Char) (v : Nat) :
    parseUint ds = .ok v ↔
      ds ≠ [] ∧ (∀ c ∈ ds, '0' ≤ c ∧ c ≤ '9') ∧ v = decimalFold 0 ds ∧ v ≤ maxUint64 := by
  unfold parseUint
  by_cases h : ds = []
  · simp [h]
  · rw [if_neg h, parseUintLoop_ok_iff]
    constructor
    · rintro ⟨ha, hv, hb⟩
      exact ⟨h, ha, hv, hv ▸ hb h⟩
    · rintro ⟨_, ha, hv, hb⟩
      exact ⟨ha, hv, fun _ => hv ▸ hb⟩

theorem digit_ne_sign (c : Char) (h : '0' ≤ c ∧ c ≤ '9') : c ≠ '+' ∧ c ≠ '-' := by
  constructor
  · rintro rfl
    exact absurd h.1 (by decide)
  · rintro rfl
    exact absurd h.1 (by decide)

/-- What `ParseInt` returns without an error, in terms of the result of `parseUint`. -/
theorem ParseInt_cons (s : String) (c : Char) (cs : List Char) (hs : s.data = c :: cs) (n : Int) :
    ParseInt s = (n, none) ↔
      ∃ un, parseUint (if c = '+' ∨ c = '-' then cs else c :: cs) = .ok un ∧
        ¬ (¬ c = '-' ∧ un ≥ 2 ^ 63) ∧ ¬ (c = '-' ∧ un > 2 ^ 63) ∧
        n = if c = '-' then -(un : Int) else (un : Int) := by
  unfold ParseInt
  rw [hs]
  simp only []
  cases hp : parseUint (if c = '+' ∨ c = '-' then cs else c :: cs) with
  | error b =>
      cases b
      · simp
      · simp only []
        split <;> simp
  | ok un =>
      simp only []
      by_cases h1 : ¬ c = '-' ∧ un ≥ 2 ^ 63
      · obtain ⟨a, b⟩ := h1
        have b' : (9223372036854775808 : ℕ) ≤ un := by simpa using b
        simp [a, b']
      · by_cases h2 : c = '-' ∧ un > 2 ^ 63
        · obtain ⟨a, b⟩ := h2
          have b' : (9223372036854775808 : ℕ) < un := by simpa using b
          simp [a, b']
        · rw [if_neg (by simpa using h1), if_neg (by simpa using h2)]
          simp only [Prod.mk.injEq, and_true, Except.ok.injEq, exists_eq_left']
          constructor
          · intro h
            exact ⟨h1, h2, by simpa using h.symm⟩
          · rintro ⟨_, _, h⟩
            simpa using h.symm

/-- The function `ParseInt` returns `n` without an error exactly when the string parses as the
64-bit integer `n`. -/
theorem ParseInt_ok_iff (s : String) (n : Int) :
    ParseInt s = (n, none) ↔ ParsesAsInt64 s n := by
  cases hs : s.data with
  | nil =>
      constructor
      · intro h
        simp [ParseInt, hs] at h
      · rintro ⟨neg, ds, hne, _, hd, _⟩
        rw [hs] at hd
        rcases hd with ⟨_, h | h⟩ | ⟨_, h⟩
        · exact absurd h.symm hne
        · cases h
        · cases h
  | cons c cs =>
      rw [ParseInt_cons s c cs hs]
      constructor
      · rintro ⟨un, hp, h1, h2, hn⟩
        rw [parseUint_ok_iff] at hp
        obtain ⟨hne, hall, hv, hmax⟩ := hp
        by_cases hm : c = '-'
        · subst hm
          simp only [or_true, if_true] at hne hall hv
          refine ⟨true, cs, hne, hall, Or.inr ⟨rfl, hs⟩, ?_, ?_, ?_⟩
          · simp [hn, hv]
          · simp only [true_and, not_true, false_and, not_false_eq_true] at h1 h2
            rw [hn]; simp only [if_true]; omega
          · rw [hn]; simp only [if_true]; omega
        · by_cases hpl : c = '+'
          · subst hpl
            simp only [true_or, if_true] at hne hall hv
            refine ⟨false, cs, hne, hall, Or.inl ⟨rfl, Or.inr hs⟩, ?_, ?_, ?_⟩
            · simp [hn, hv, hm]
            · rw [hn, if_neg hm]; omega
            · simp only [hm, not_false_eq_true, true_and] at h1
              rw [hn, if_neg hm]; omega
          · have hor : ¬ (c = '+' ∨ c = '-') := by simp [hm, hpl]
            rw [if_neg hor] at hne hall hv
            refine ⟨false, c :: cs, hne, hall, Or.inl ⟨rfl, Or.inl hs⟩, ?_, ?_, ?_⟩
            · simp [hn, hv, hm]
            · rw [hn, if_neg hm]; omega
            · simp only [hm, not_false_eq_true, true_and] at h1
              rw [hn, if_neg hm]; omega
      · rintro ⟨neg, ds, hne, hall, hd, hn, hlo, hhi⟩
        rw [hs] at hd
        rcases hd with ⟨rfl, h | h⟩ | ⟨rfl, h⟩
        · subst h
          have hc := digit_ne_sign c (hall c (List.mem_cons_self _ _))
          have hor : ¬ (c = '+' ∨ c = '-') := by simp [hc.1, hc.2]
          simp only [Bool.false_eq_true, if_false] at hn
          refine ⟨decimalFold 0 (c :: cs), ?_, ?_, ?_, ?_⟩
          · rw [if_neg hor, parseUint_ok_iff]
            exact ⟨hne, hall, rfl, by simp only [maxUint64]; omega⟩
          · simp only [hc.2, not_false_eq_true, true_and]; omega
          · simp [hc.2]
          · simp [hc.2, hn]
        · cases h
          simp only [Bool.false_eq_true, if_false] at hn
          refine ⟨decimalFold 0 cs, ?_, ?_, ?_, ?_⟩
          · rw [if_pos (Or.inl rfl), parseUint_ok_iff]
            exact ⟨hne, hall, rfl, by simp only [maxUint64]; omega⟩
          · have : ¬ ('+' = '-') := by decide
            simp only [this, not_false_eq_true, true_and]; omega
          · have : ¬ ('+' = '-') := by decide
            simp [this]
          · have : ¬ ('+' = '-') := by decide
            simp [this, hn]
        · cases h
          simp only [if_true] at hn
          refine ⟨decimalFold 0 cs, ?_, ?_, ?_, ?_⟩
          · rw [if_pos (Or.inr rfl), parseUint_ok_iff]
            exact ⟨hne, hall, rfl, by simp only [maxUint64]; omega⟩
          · simp
          · simp only [true_and]; omega
          · simp [hn]

/-! ## C1: `Int64Option.Form2Config` -/

theorem Int64Option.Form2Config_ok_iff (o : Int64Option) (s : String) (rest : List String)
    (uid : Nat) (line : String) :
    o.Form2Config (s :: rest) uid = .ok line ↔
      ∃ n : Int, ParsesAsInt64 s n ∧ o.min ≤ n ∧ (o.max = 0 ∨ n ≤ o.max) ∧
        line = o.configName ++ "=" ++ toString n := by
  unfold Int64Option.Form2Config Int64Option.Form2Int64 BaseOption.Form2String
  simp only []
  constructor
  · intro h
    split at h
    · cases h
    · rename_i num hp
      rw [ParseInt_ok_iff] at hp
      split at h
      · cases h
      · split at h
        · cases h
        · rename_i h1 h2
          injection h with h
          refine ⟨num, hp, by omega, ?_, h.symm⟩
          by_cases hm : o.max = 0
          · exact Or.inl hm
          · right
            by_contra hc
            exact h2 ⟨hm, by omega⟩
  · rintro ⟨n, hp, h1, h2, rfl⟩
    rw [← ParseInt_ok_iff] at hp
    rw [hp]
    simp only []
    rw [if_neg (by omega), if_neg]
    rintro ⟨hm, hgt⟩
    rcases h2 with h2 | h2
    · exact hm h2
    · omega

/-- The value of `Form2Config` on a first value whose parse is known. -/
theorem Int64Option.Form2Config_of_ParseInt (o : Int64Option) (s : String) (rest : List String)
    (uid : Nat) (n : Int) (h : ParseInt s = (n, none)) :
    o.Form2Config (s :: rest) uid =
      if n < o.min then
        .error (.msg ("设置的值" ++ toString n ++ "小于最小值" ++ toString o.min))
      else if o.max ≠ 0 ∧ n > o.max then
        .error (.msg ("设置的值" ++ toString n ++ "大于最大值" ++ toString o.max))
      else .ok (o.configName ++ "=" ++ toString n) := by
  simp only [Int64Option.Form2Config, Int64Option.Form2Int64, BaseOption.Form2String, h]

/-- C1. `Int64Option.Form2Config` on a non-empty value list succeeds exactly when the first value
parses as a base-10 signed 64-bit integer `n` with `min ≤ n` and (`max = 0` or `n ≤ max`), and
the line is then the config name, `=` and the decimal digits of `n`; a first value that is not
such a number is rejected; with `max = 0` only the minimum is applied; with `min = 1` and
`max = 640` the values `0`, `641`, the empty string, `abc`, `12a` and `1.5` are rejected and `1`
and `640` are accepted. -/
theorem Int64Option_Form2Config_contract :
    (∀ (o : Int64Option) (s : String) (rest : List String) (uid : Nat) (line : String),
      o.Form2Config (s :: rest) uid = .ok line ↔
        ∃ n : Int, ParsesAsInt64 s n ∧ o.min ≤ n ∧ (o.max = 0 ∨ n ≤ o.max) ∧
          line = o.configName ++ "=" ++ toString n) ∧
    (∀ (o : Int64Option) (s : String) (rest : List String) (uid : Nat),
      (∃ e, o.Form2Config (s :: rest) uid = .error e) ∨ ∃ n : Int, ParsesAsInt64 s n) ∧
    (∀ (b : BaseOption) (d : String) (m : Int) (s : String) (rest : List String) (uid : Nat),
      (∃ line, Int64Option.Form2Config { toBaseOption := b, defaultVal := d, min := m, max := 0 }
          (s :: rest) uid = .ok line) ↔ ∃ n : Int, ParsesAsInt64 s n ∧ m ≤ n) ∧
    (∀ (b : BaseOption) (d : String) (rest : List String) (uid : Nat),
      Int64Option.Form2Config { toBaseOption := b, defaultVal := d, min := 1, max := 640 }
          ("0" :: rest) uid = .error (.msg "设置的值0小于最小值1") ∧
      Int64Option.Form2Config { toBaseOption := b, defaultVal := d, min := 1, max := 640 }
          ("641" :: rest) uid = .error (.msg "设置的值641大于最大值640") ∧
      Int64Option.Form2Config { toBaseOption := b, defaultVal := d, min := 1, max := 640 }
          ("" :: rest) uid = .error (.num "ParseInt" "" false) ∧
      Int64Option.Form2Config { toBaseOption := b, defaultVal := d, min := 1, max := 640 }
          ("abc" :: rest) uid = .error (.num "ParseInt" "abc" false) ∧
      Int64Option.Form2Config { toBaseOption := b, defaultVal := d, min := 1, max := 640 }
          ("12a" :: rest) uid = .error (.num "ParseInt" "12a" false) ∧
      Int64Option.Form2Config { toBaseOption := b, defaultVal := d, min := 1, max := 640 }
          ("1.5" :: rest) uid = .error (.num "ParseInt" "1.5" false) ∧
      Int64Option.Form2Config { toBaseOption := b, defaultVal := d, min := 1, max := 640 }
          ("1" :: rest) uid = .ok (b.configName ++ "=" ++ "1") ∧
      Int64Option.Form2Config { toBaseOption := b, defaultVal := d, min := 1, max := 640 }
          ("640" :: rest) uid = .ok (b.configName ++ "=" ++ "640")) := by
  refine ⟨Int64Option.Form2Config_ok_iff, ?_, ?_, ?_⟩
  · intro o s rest uid
    cases h : o.Form2Config (s :: rest) uid with
    | error e => exact Or.inl ⟨e, rfl⟩
    | ok line =>
        obtain ⟨n, hn, _⟩ := (Int64Option.Form2Config_ok_iff o s rest uid line).1 h
        exact Or.inr ⟨n, hn⟩
  · intro b d m s rest uid
    constructor
    · rintro ⟨line, h⟩
      obtain ⟨n, hn, hm, _⟩ := (Int64Option.Form2Config_ok_iff _ s rest uid line).1 h
      exact ⟨n, hn, hm⟩
    · rintro ⟨n, hn, hm⟩
      exact ⟨_, (Int64Option.Form2Config_ok_iff _ s rest uid _).2 ⟨n, hn, hm, Or.inl rfl, rfl⟩⟩
  · intro b d rest uid
    have e0 : ParseInt "0" = (0, none) := by decide
    have e641 : ParseInt "641" = (641, none) := by decide
    have e1 : ParseInt "1" = (1, none) := by decide
    have e640 : ParseInt "640" = (640, none) := by decide
    have eEmpty : ParseInt "" = (0, some (.num "ParseInt" "" false)) := by decide
    have eabc : ParseInt "abc" = (0, some (.num "ParseInt" "abc" false)) := by decide
    have e12a : ParseInt "12a" = (0, some (.num "ParseInt" "12a" false)) := by decide
    have e15 : ParseInt "1.5" = (0, some (.num "ParseInt" "1.5" false)) := by decide
    refine ⟨?_, ?_, ?_, ?_, ?_, ?_, ?_, ?_⟩
    · rw [Int64Option.Form2Config_of_ParseInt _ _ _ _ _ e0]; rfl
    · rw [Int64Option.Form2Config_of_ParseInt _ _ _ _ _ e641]; rfl
    · simp only [Int64Option.Form2Config, Int64Option.Form2Int64, BaseOption.Form2String, eEmpty]
    · simp only [Int64Option.Form2Config, Int64Option.Form2Int64, BaseOption.Form2String, eabc]
    · simp only [Int64Option.Form2Config, Int64Option.Form2Int64, BaseOption.Form2String, e12a]
    · simp only [Int64Option.Form2Config, Int64Option.Form2Int64, BaseOption.Form2String, e15]
    · rw [Int64Option.Form2Config_of_ParseInt _ _ _ _ _ e1]; rfl
    · rw [Int64Option.Form2Config_of_ParseInt _ _ _ _ _ e640]; rfl

/-! ## `PhotosTimezoneOption.Float642Config` -/

theorem Int.tmod_nonpos_of_nonpos (n d : Int) (hn : n ≤ 0) : n.tmod d ≤ 0 := by
  have h1 : n.tmod d = -((-n).tmod d) := by
    rw [Int.tmod_def, Int.tmod_def, Int.neg_tdiv]
    ring
  have h2 := Int.tmod_nonneg d (show 0 ≤ -n by omega)
  omega

/-- The decision and the result of `Float642Config` on a finite value, in terms of the truncated
quotient and the remainder of `n` by `2 ^ k`. -/
theorem PhotosTimezoneOption.Float642Config_fin (this : PhotosTimezoneOption) (n : Int) (k : Nat) :
    this.Float642Config (.fin n k) =
      if n.tdiv (2 ^ k) < -12 ∨ n.tdiv (2 ^ k) > 13 ∨
          (n.tmod (2 ^ k) ≠ 0 ∧ 2 * n.tmod (2 ^ k) ≠ 2 ^ k) then
        ("", some (.msg "格式不对"))
      else if n.tmod (2 ^ k) = 0 then
        (this.configName ++ "=" ++ toString (n.tdiv (2 ^ k)), none)
      else (this.configName ++ "=" ++ F64.fmtF (.fin n k), none) := by
  simp only [PhotosTimezoneOption.Float642Config, F64.Modf, F64.toInt64, F64.ne, F64.eq,
    F64.zero, F64.half, pow_zero, Int.tdiv_one, mul_one, zero_mul, pow_one, one_mul,
    Bool.not_eq_true', decide_eq_false_iff_not, decide_eq_true_eq, minInt64, maxInt64]
  by_cases hr : -(2 ^ 63) ≤ n.tdiv (2 ^ k) ∧ n.tdiv (2 ^ k) ≤ 2 ^ 63 - 1
  · rw [if_pos hr]
    have e : n.tmod (2 ^ k) * 2 = 2 * n.tmod (2 ^ k) := by ring
    simp only [e]
  · rw [if_neg hr]
    have h1 : n.tdiv (2 ^ k) < -12 ∨ n.tdiv (2 ^ k) > 13 := by omega
    rw [if_pos (Or.inl (by norm_num)), if_pos]
    rcases h1 with h | h
    · exact Or.inl h
    · exact Or.inr (Or.inl h)

/-- A value that is not finite is rejected. -/
theorem PhotosTimezoneOption.Float642Config_not_finite (this : PhotosTimezoneOption) (x : F64)
    (hx : x.isFinite = false) : this.Float642Config x = ("", some (.msg "格式不对")) := by
  cases x with
  | fin n k => simp [F64.isFinite] at hx
  | inf neg => simp [PhotosTimezoneOption.Float642Config, F64.Modf, F64.ne, F64.eq, F64.zero, F64.half]
  | nan => simp [PhotosTimezoneOption.Float642Config, F64.Modf, F64.ne, F64.eq, F64.zero, F64.half]

/-- The rational value of `fin n k` is the truncated quotient plus the remainder over `2 ^ k`. -/
theorem F64.val_fin (n : Int) (k : Nat) :
    (F64.fin n k).val = (n.tdiv (2 ^ k) : ℚ) + (n.tmod (2 ^ k) : ℚ) / 2 ^ k := by
  have h := Int.tdiv_add_tmod n (2 ^ k)
  have hq : (n : ℚ) = (2 : ℚ) ^ k * (n.tdiv (2 ^ k) : ℚ) + (n.tmod (2 ^ k) : ℚ) := by
    exact_mod_cast h.symm
  have hpos : (2 : ℚ) ^ k ≠ 0 := by positivity
  simp only [F64.val]
  rw [hq]
  field_simp
  ring

/-- An accepted value: it is finite, its truncated quotient `z` lies between -12 and 13, and its
remainder is zero or half of `2 ^ k`. -/
theorem PhotosTimezoneOption.Float642Config_accepts (this : PhotosTimezoneOption) (x : F64)
    (line : String) (h : this.Float642Config x = (line, none)) :
    ∃ n k, x = .fin n k ∧ -12 ≤ n.tdiv (2 ^ k) ∧ n.tdiv (2 ^ k) ≤ 13 ∧
      ((n.tmod (2 ^ k) = 0 ∧ line = this.configName ++ "=" ++ toString (n.tdiv (2 ^ k))) ∨
       (2 * n.tmod (2 ^ k) = 2 ^ k ∧ line = this.configName ++ "=" ++ F64.fmtF x)) := by
  cases x with
  | fin n k =>
      rw [PhotosTimezoneOption.Float642Config_fin] at h
      split at h
      · cases h
      · rename_i hc
        refine ⟨n, k, rfl, by omega, by omega, ?_⟩
        split at h
        · rename_i h0
          injection h with h
          exact Or.inl ⟨h0, h.symm⟩
        · rename_i h0
          injection h with h
          refine Or.inr ⟨?_, h.symm⟩
          by_contra hne
          exact hc (Or.inr (Or.inr ⟨h0, hne⟩))
  | inf neg =>
      rw [PhotosTimezoneOption.Float642Config_not_finite this (.inf neg) rfl] at h
      cases h
  | nan =>
      rw [PhotosTimezoneOption.Float642Config_not_finite this .nan rfl] at h
      cases h

/-- The function `Float642Config` either rejects with its one error or returns a line. -/
theorem PhotosTimezoneOption.Float642Config_cases (this : PhotosTimezoneOption) (x : F64) :
    this.Float642Config x = ("", some (.msg "格式不对")) ∨
      ∃ line, this.Float642Config x = (line, none) := by
  cases x with
  | fin n k =>
      rw [PhotosTimezoneOption.Float642Config_fin]
      split
      · exact Or.inl rfl
      · split
        · exact Or.inr ⟨_, rfl⟩
        · exact Or.inr ⟨_, rfl⟩
  | inf neg => exact Or.inl (PhotosTimezoneOption.Float642Config_not_finite this (.inf neg) rfl)
  | nan => exact Or.inl (PhotosTimezoneOption.Float642Config_not_finite this .nan rfl)

/-- What acceptance implies for the value: finite, between -12 and 13.5, whole or half. -/
theorem PhotosTimezoneOption.Float642Config_accepted_value (this : PhotosTimezoneOption)
    (x : F64) (line : String) (h : this.Float642Config x = (line, none)) :
    x.isFinite = true ∧ -12 ≤ x.val ∧ x.val ≤ 27 / 2 ∧ x.WholeOrHalf := by
  obtain ⟨n, k, rfl, hlo, hhi, hr⟩ := PhotosTimezoneOption.Float642Config_accepts this x line h
  have hpos : (0 : ℚ) < 2 ^ k := by positivity
  have hlo' : (-12 : ℚ) ≤ (n.tdiv (2 ^ k) : ℚ) := by exact_mod_cast hlo
  have hhi' : (n.tdiv (2 ^ k) : ℚ) ≤ 13 := by exact_mod_cast hhi
  rw [F64.WholeOrHalf, F64.val_fin]
  rcases hr with ⟨h0, _⟩ | ⟨h2, _⟩
  · rw [h0]
    simp only [Int.cast_zero, zero_div, add_zero]
    exact ⟨rfl, hlo', by linarith, _, Or.inl rfl⟩
  · have h2' : (n.tmod (2 ^ k) : ℚ) / 2 ^ k = 1 / 2 := by
      have : (2 : ℚ) * (n.tmod (2 ^ k) : ℚ) = 2 ^ k := by exact_mod_cast h2
      field_simp
      linarith
    rw [h2']
    exact ⟨rfl, by linarith, by linarith, _, Or.inr rfl⟩

/-! ## C3 -/

/-- C3, at the inputs -3.5 and -9.5: both are whole numbers plus one half inside [-12, 13]
(-3.5 = -4 + 1/2, -9.5 = -10 + 1/2), and `Float642Config` rejects both with its format error,
because `math.Modf` hands back the fractional part -0.5, which is neither 0 nor 0.5. -/
theorem Float642Config_rejects_negative_half (this : PhotosTimezoneOption) :
    ((F64.fin (-7) 1).val = -4 + 1 / 2 ∧ -12 ≤ (F64.fin (-7) 1).val ∧ (F64.fin (-7) 1).val ≤ 13 ∧
      F64.Modf (.fin (-7) 1) = (.fin (-3) 0, .fin (-1) 1) ∧
      this.Float642Config (.fin (-7) 1) = ("", some (.msg "格式不对"))) ∧
    ((F64.fin (-19) 1).val = -10 + 1 / 2 ∧ -12 ≤ (F64.fin (-19) 1).val ∧
      (F64.fin (-19) 1).val ≤ 13 ∧
      this.Float642Config (.fin (-19) 1) = ("", some (.msg "格式不对"))) := by
  refine ⟨⟨by norm_num [F64.val], by norm_num [F64.val], by norm_num [F64.val], by decide, ?_⟩,
    by norm_num [F64.val], by norm_num [F64.val], by norm_num [F64.val], ?_⟩
  · rw [PhotosTimezoneOption.Float642Config_fin, if_pos]
    exact Or.inr (Or.inr (by decide))
  · rw [PhotosTimezoneOption.Float642Config_fin, if_pos]
    exact Or.inr (Or.inr (by decide))

/-! ## C4 -/

/-- C4 as stated fails at 13.5: the value is accepted although it is greater than 13. -/
theorem Float642Config_accepts_thirteen_and_a_half :
    (makevideoOptionsInit "").photosTimezoneOption.Float642Config (.fin 27 1) =
        ("photos_timezone=13.500000", none) ∧
      ¬ (F64.fin 27 1).val ≤ 13 := by
  refine ⟨by decide, ?_⟩
  norm_num [F64.val]

/-- C4, amended: whenever `Float642Config` succeeds the value is finite, lies in the closed
interval [-12, 13.5] and is a whole number or a whole number plus one half; every value that is
not so is rejected with the format error, in particular 3.3 (the `float64` nearest to it), 14
and -13. -/
theorem Float642Config_success_range (this : PhotosTimezoneOption) (x : F64) :
    ((∃ line, this.Float642Config x = (line, none)) →
      x.isFinite = true ∧ -12 ≤ x.val ∧ x.val ≤ 27 / 2 ∧ x.WholeOrHalf) ∧
    (¬ (x.isFinite = true ∧ -12 ≤ x.val ∧ x.val ≤ 27 / 2 ∧ x.WholeOrHalf) →
      this.Float642Config x = ("", some (.msg "格式不对"))) ∧
    this.Float642Config (.fin 7430939385161318 51) = ("", some (.msg "格式不对")) ∧
    this.Float642Config (.fin 14 0) = ("", some (.msg "格式不对")) ∧
    this.Float642Config (.fin (-13) 0) = ("", some (.msg "格式不对")) := by
  refine ⟨?_, ?_, ?_, ?_, ?_⟩
  · rintro ⟨line, h⟩
    exact PhotosTimezoneOption.Float642Config_accepted_value this x line h
  · intro hn
    rcases PhotosTimezoneOption.Float642Config_cases this x with h | ⟨line, h⟩
    · exact h
    · exact absurd (PhotosTimezoneOption.Float642Config_accepted_value this x line h) hn
  · rw [PhotosTimezoneOption.Float642Config_fin, if_pos]
    exact Or.inr (Or.inr (by decide))
  · rw [PhotosTimezoneOption.Float642Config_fin, if_pos]
    exact Or.inr (Or.inl (by decide))
  · rw [PhotosTimezoneOption.Float642Config_fin, if_pos]
    exact Or.inl (by decide)

/-- The amended C4 at 3.5, which is accepted. -/
theorem Float642Config_success_range_witness :
    (makevideoOptionsInit "").photosTimezoneOption.Float642Config (.fin 7 1) =
        ("photos_timezone=3.500000", none) ∧
      ((F64.fin 7 1).isFinite = true ∧ -12 ≤ (F64.fin 7 1).val ∧ (F64.fin 7 1).val ≤ 27 / 2 ∧
        (F64.fin 7 1).WholeOrHalf) :=
  ⟨by decide,
    (Float642Config_success_range (makevideoOptionsInit "").photosTimezoneOption (.fin 7 1)).1
      ⟨"photos_timezone=3.500000", by decide⟩⟩

/-! ## C5 -/

/-- The verb `%f` on a non-negative whole number plus one half: the whole number in decimal
followed by `.500000`. -/
theorem F64.fmtF_half (n : Int) (k : Nat) (h : 2 * n.tmod (2 ^ k) = 2 ^ k) :
    0 ≤ n.tdiv (2 ^ k) ∧
      F64.fmtF (.fin n k) = toString (n.tdiv (2 ^ k)) ++ ".500000" := by
  have hd : (0 : Int) < 2 ^ k := by positivity
  have hn : 0 ≤ n := by
    by_contra hneg
    have := Int.tmod_nonpos_of_nonpos n (2 ^ k) (by omega)
    omega
  have hz : 0 ≤ n.tdiv (2 ^ k) := Int.tdiv_nonneg hn (le_of_lt hd)
  refine ⟨hz, ?_⟩
  obtain ⟨a, rfl⟩ := Int.eq_ofNat_of_zero_le hn
  cases k with
  | zero => simp at h
  | succ j =>
      have hdiv : ((a : Int).tdiv (2 ^ (j + 1))) = ((a / 2 ^ (j + 1) : Nat) : Int) := by
        rw [Int.tdiv_eq_ediv hn (le_of_lt hd)]
        norm_cast
      have hmod : ((a : Int).tmod (2 ^ (j + 1))) = ((a % 2 ^ (j + 1) : Nat) : Int) := by
        rw [Int.tmod_eq_emod hn (le_of_lt hd)]
        norm_cast
      rw [hmod] at h
      have hm : 2 * (a % 2 ^ (j + 1)) = 2 ^ (j + 1) := by exact_mod_cast h
      have hm' : a % 2 ^ (j + 1) = 2 ^ j := by
        rw [pow_succ] at hm ⊢
        omega
      have ha : a = 2 ^ (j + 1) * (a / 2 ^ (j + 1)) + 2 ^ j := by
        have := Nat.div_add_mod a (2 ^ (j + 1))
        omega
      have hpos : 0 < 2 ^ (j + 1) := by positivity
      have hscaled : a * 10 ^ 6 = 2 ^ (j + 1) * ((a / 2 ^ (j + 1)) * 10 ^ 6 + 500000) := by
        have e : (2 : Nat) ^ j * 10 ^ 6 = 2 ^ (j + 1) * 500000 := by
          rw [pow_succ]; ring
        calc a * 10 ^ 6
            = (2 ^ (j + 1) * (a / 2 ^ (j + 1)) + 2 ^ j) * 10 ^ 6 := by rw [← ha]
          _ = 2 ^ (j + 1) * (a / 2 ^ (j + 1)) * 10 ^ 6 + 2 ^ j * 10 ^ 6 := by ring
          _ = 2 ^ (j + 1) * ((a / 2 ^ (j + 1)) * 10 ^ 6 + 500000) := by rw [e]; ring
      have hround : F64.roundHalfEven (a * 10 ^ 6) (2 ^ (j + 1)) =
          (a / 2 ^ (j + 1)) * 10 ^ 6 + 500000 := by
        unfold F64.roundHalfEven
        simp only []
        rw [hscaled, Nat.mul_div_cancel_left _ hpos, Nat.mul_mod_right]
        simp [hpos]
      have hq : ((a / 2 ^ (j + 1)) * 10 ^ 6 + 500000) / 10 ^ 6 = a / 2 ^ (j + 1) := by omega
      have hr : ((a / 2 ^ (j + 1)) * 10 ^ 6 + 500000) % 10 ^ 6 = 500000 := by omega
      have hpad : F64.pad6 500000 = "500000" := by decide
      have hneg : ¬ ((a : Int) < 0) := by omega
      simp only [F64.fmtF, Int.natAbs_ofNat, hround, hq, hr, hpad, hneg, if_false,
        String.empty_append, hdiv]
      rw [String.append_assoc]
      rfl

/-- C5. The line of an accepted value: for a value with zero fractional part (a whole number `z`)
it is the config name, `=` and `z` in decimal without a decimal point; for a value with a
one-half fractional part (`z + 1/2`) it is the config name, `=` and the value in fixed-point
notation with six fractional digits, which reads `z.500000`. So `8`, `-11` and `3.5` give
`photos_timezone=8`, `photos_timezone=-11` and `photos_timezone=3.500000`. -/
theorem Float642Config_output_format (this : PhotosTimezoneOption) (x : F64) (line : String) :
    (this.Float642Config x = (line, none) →
      (∀ z : Int, x.val = z → line = this.configName ++ "=" ++ toString z) ∧
      (∀ z : Int, x.val = z + 1 / 2 →
        line = this.configName ++ "=" ++ F64.fmtF x ∧ F64.fmtF x = toString z ++ ".500000")) ∧
    (makevideoOptionsInit "").photosTimezoneOption.Float642Config (.fin 8 0) =
      ("photos_timezone=8", none) ∧
    (makevideoOptionsInit "").photosTimezoneOption.Float642Config (.fin (-11) 0) =
      ("photos_timezone=-11", none) ∧
    (makevideoOptionsInit "").photosTimezoneOption.Float642Config (.fin 7 1) =
      ("photos_timezone=3.500000", none) := by
  refine ⟨?_, by decide, by decide, by decide⟩
  intro h
  obtain ⟨n, k, rfl, _, _, hr⟩ := PhotosTimezoneOption.Float642Config_accepts this x line h
  have hpos : (0 : ℚ) < 2 ^ k := by positivity
  have hval := F64.val_fin n k
  rcases hr with ⟨h0, hl⟩ | ⟨h2, hl⟩
  · rw [h0] at hval
    simp only [Int.cast_zero, zero_div, add_zero] at hval
    constructor
    · intro z hz
      have : n.tdiv (2 ^ k) = z := by
        rw [hval] at hz
        exact_mod_cast hz
      rw [hl, this]
    · intro z hz
      exfalso
      rw [hval] at hz
      have e : (2 : ℚ) * (n.tdiv (2 ^ k) : ℚ) = 2 * z + 1 := by linarith
      have e' : 2 * n.tdiv (2 ^ k) = 2 * z + 1 := by exact_mod_cast e
      omega
  · have h2' : (n.tmod (2 ^ k) : ℚ) / 2 ^ k = 1 / 2 := by
      have : (2 : ℚ) * (n.tmod (2 ^ k) : ℚ) = 2 ^ k := by exact_mod_cast h2
      field_simp
      linarith
    rw [h2'] at hval
    constructor
    · intro z hz
      exfalso
      rw [hval] at hz
      have e : (2 : ℚ) * (n.tdiv (2 ^ k) : ℚ) + 1 = 2 * z := by linarith
      have e' : 2 * n.tdiv (2 ^ k) + 1 = 2 * z := by exact_mod_cast e
      omega
    · intro z hz
      have : n.tdiv (2 ^ k) = z := by
        rw [hval] at hz
        have e : (n.tdiv (2 ^ k) : ℚ) = z := by linarith
        exact_mod_cast e
      refine ⟨hl, ?_⟩
      rw [(F64.fmtF_half n k h2).2, this]

/-- The format of C5 at 3.5. -/
theorem Float642Config_output_format_witness :
    (makevideoOptionsInit "").photosTimezoneOption.Float642Config (.fin 7 1) =
        ("photos_timezone=3.500000", none) ∧
      (F64.fin 7 1).val = (3 : Int) + 1 / 2 ∧
      ("photos_timezone=3.500000" =
          (makevideoOptionsInit "").photosTimezoneOption.configName ++ "=" ++
            F64.fmtF (.fin 7 1) ∧
        F64.fmtF (.fin 7 1) = toString (3 : Int) ++ ".500000") :=
  ⟨by decide, by norm_num [F64.val],
    ((Float642Config_output_format (makevideoOptionsInit "").photosTimezoneOption (.fin 7 1)
      "photos_timezone=3.500000").1 (by decide)).2 3 (by norm_num [F64.val])⟩

/-! ## C8 -/

/-- C8 as stated fails for `PhotosOption`: with an empty value list its `Form2Config` returns no
error (and the empty line). -/
theorem PhotosOption_Form2Config_empty_no_error :
    PhotosOption.Form2Config sampleEnv
        { configName := "photos_dir", required := false, shortInfo := "在视频中增加照片",
          longInfo := "", needRec := false, defaultVal := true } [] 7 = .ok "" ∧
      ¬ ∃ e, PhotosOption.Form2Config sampleEnv
        { configName := "photos_dir", required := false, shortInfo := "在视频中增加照片",
          longInfo := "", needRec := false, defaultVal := true } [] 7 = .error e := by
  constructor
  · rfl
  · rintro ⟨e, h⟩
    cases h

/-- C8, amended: for every user id, `Form2Config` with an empty value list returns the
missing-input error and no config line for an `Int64Option` and for a `PhotosTimezoneOption`;
for a `PhotosOption` it returns no error and the empty line, whatever `dir_check_creat` would
answer. In the registry the first holds for the five options of these two variants and the
second for `photos_dir`. -/
theorem Form2Config_empty_form (env : Env) (uid : Nat) :
    (∀ o : Int64Option, o.Form2Config [] uid = .error (.msg "提交数据出错")) ∧
    (∀ o : PhotosTimezoneOption, o.Form2Config env [] uid = .error (.msg "提交数据出错")) ∧
    (∀ o : PhotosOption, o.Form2Config env [] uid = .ok "") ∧
    (∀ (photosLink index : String) (option : MakevideoOptioner),
      (index, option) ∈ (makevideoOptionsInit photosLink).makevideoOptions →
        (index ≠ "photos_dir" → option.Form2Config env [] uid = .error (.msg "提交数据出错")) ∧
        (index = "photos_dir" → option.Form2Config env [] uid = .ok "")) := by
  refine ⟨fun _ => rfl, fun _ => rfl, fun _ => rfl, ?_⟩
  intro photosLink index option hmem
  simp only [makevideoOptionsInit, makevideoOptionsRaw, List.map_cons, List.map_nil,
    List.mem_cons, Prod.mk.injEq, List.mem_nil_iff, or_false] at hmem
  rcases hmem with ⟨rfl, rfl⟩ | ⟨rfl, rfl⟩ | ⟨rfl, rfl⟩ | ⟨rfl, rfl⟩ | ⟨rfl, rfl⟩ | ⟨rfl, rfl⟩ |
    ⟨rfl, rfl⟩
  all_goals
    constructor
    · intro h
      first
        | rfl
        | exact absurd rfl h
    · intro h
      first
        | rfl
        | exact absurd h (by decide)

/-- The amended C8 at the registered `video_width` option. -/
theorem Form2Config_empty_form_witness :
    ("video_width", MakevideoOptioner.int64
        { configName := "video_width", required := true, shortInfo := "视频宽度",
          longInfo := "google map免费版的限制，最大640。", needRec := false,
          defaultVal := "640", min := 1, max := 640 }) ∈
        (makevideoOptionsInit "").makevideoOptions ∧
      (MakevideoOptioner.int64
        { configName := "video_width", required := true, shortInfo := "视频宽度",
          longInfo := "google map免费版的限制，最大640。", needRec := false,
          defaultVal := "640", min := 1, max := 640 }).Form2Config sampleEnv [] 7 =
        .error (.msg "提交数据出错") :=
  ⟨by decide,
    ((Form2Config_empty_form sampleEnv 7).2.2.2 "" "video_width" _ (by decide)).1 (by decide)⟩

/-! ## C9 and C10: `makeVideo` -/

/-- The three ways `makeVideo` ends, by the result of the external process. -/
theorem makeVideo_eq (cmd : DirState → CmdResult) (fs : DirState) :
    makeVideo cmd fs =
      match (cmd fs).err with
      | some _ => { work := none, parent := (cmd fs).fs.parent }
      | none =>
          if stringsContains (cmd fs).out "视频生成成功" then
            { work := none, parent := (osRenameVideo (cmd fs).fs).1.parent }
          else
            { work := none,
              parent := ("error", "") :: (cmd fs).fs.parent.filter fun e => e.1 != "error" } := by
  unfold makeVideo
  simp only []
  cases (cmd fs).err with
  | some e => rfl
  | none =>
      simp only []
      split <;> rfl

/-- C9, at a process that returns an error (whatever file system `fs1` and output `out` it
leaves): `makeVideo` returns with the parent directory as the process left it, so no file named
`error` is created there; the sibling path, where the process returns no error and the output
lacks the marker, does create the empty file `error`. Concretely, after a process that fails
with `exit status 1` and leaves an empty parent directory, the parent directory is still
empty. -/
theorem makeVideo_process_error_no_marker :
    (∀ (fs1 : DirState) (out : String) (e : GoError) (fs : DirState),
      makeVideo (fun _ => { fs := fs1, out := out, err := some e }) fs =
        { work := none, parent := fs1.parent }) ∧
    (∀ (fs1 : DirState) (out : String) (fs : DirState),
      makeVideo (fun _ => { fs := fs1, out := out, err := none }) fs =
        if stringsContains out "视频生成成功" then
          { work := none, parent := (osRenameVideo fs1).1.parent }
        else
          { work := none,
            parent := ("error", "") :: fs1.parent.filter fun e => e.1 != "error" }) ∧
    makeVideo
        (fun _ =>
          { fs := { work := some [("config.ini", "c"), ("g2v.gpx", "g")], parent := [] },
            out := "Traceback", err := some (.msg "exit status 1") })
        { work := some [("config.ini", "c"), ("g2v.gpx", "g")], parent := [] } =
      { work := none, parent := [] } := by
  refine ⟨?_, ?_, ?_⟩
  · intro fs1 out e fs
    rw [makeVideo_eq]
  · intro fs1 out fs
    rw [makeVideo_eq]
  · rw [makeVideo_eq]

/-- C10. For every result of the external process and every file system it leaves, the working
directory does not exist when `makeVideo` returns, and every entry of the parent directory then
is an entry the process left there, or is `v.mp4`, or is `error`. -/
theorem makeVideo_frame (cmd : DirState → CmdResult) (fs : DirState) :
    (makeVideo cmd fs).work = none ∧
      ∀ name ∈ (makeVideo cmd fs).parent.map Prod.fst,
        name ∈ (cmd fs).fs.parent.map Prod.fst ∨ name = "v.mp4" ∨ name = "error" := by
  rw [makeVideo_eq]
  cases (cmd fs).err with
  | some e => exact ⟨rfl, fun name h => Or.inl h⟩
  | none =>
      simp only []
      split
      · refine ⟨rfl, ?_⟩
        intro name h
        simp only [osRenameVideo] at h
        split at h
        · exact Or.inl h
        · split at h
          · exact Or.inl h
          · simp only [List.map_cons, List.mem_cons, List.mem_map, List.mem_filter] at h
            rcases h with rfl | ⟨a, ⟨ha, _⟩, rfl⟩
            · exact Or.inr (Or.inl rfl)
            · exact Or.inl (List.mem_map_of_mem _ ha)
      · refine ⟨rfl, ?_⟩
        intro name h
        simp only [List.map_cons, List.mem_cons, List.mem_map, List.mem_filter] at h
        rcases h with rfl | ⟨a, ⟨ha, _⟩, rfl⟩
        · exact Or.inr (Or.inr rfl)
        · exact Or.inl (List.mem_map_of_mem _ ha)

/-! ## The loop over the required options -/

theorem Form.lookup_delete (form : Form) (index k : String) (h : k ≠ index) :
    (Form.delete form index).lookup k = form.lookup k := by
  induction form with
  | nil => rfl
  | cons e rest ih =>
      obtain ⟨a, v⟩ := e
      unfold Form.delete at ih ⊢
      by_cases ha : a = index
      · subst ha
        have hk : (k == a) = false := by simpa using h
        rw [List.filter_cons_of_neg (by simp), ih, List.lookup_cons, hk]
      · rw [List.filter_cons_of_pos (by simpa using ha), List.lookup_cons, List.lookup_cons, ih]

theorem requiredFailure_congr (env : Env) (uid : Nat) (form1 form2 : Form) (index : String)
    (option : MakevideoOptioner) (h : form1.lookup index = form2.lookup index) :
    requiredFailure env uid form1 index option = requiredFailure env uid form2 index option := by
  unfold requiredFailure
  rw [h]

theorem requiredLine_congr (env : Env) (uid : Nat) (form1 form2 : Form) (index : String)
    (option : MakevideoOptioner) (h : form1.lookup index = form2.lookup index) :
    requiredLine env uid form1 index option = requiredLine env uid form2 index option := by
  unfold requiredLine
  rw [h]

/-- An iteration that aborts: it aborts as `requiredFailure` says. -/
theorem requiredStep_error (env : Env) (uid : Nat) (st : ReqState) (index : String)
    (option : MakevideoOptioner) (a : Abort)
    (h : requiredStep env uid st index option = .error a) :
    requiredFailure env uid st.form index option = some a := by
  unfold requiredStep at h
  unfold requiredFailure
  by_cases hr : ¬ option.Getrequired
  · rw [if_pos hr] at h
    cases h
  · rw [if_neg hr] at h
    rw [if_neg hr]
    cases hl : st.form.lookup index with
    | none =>
        rw [hl] at h
        simp only [] at h ⊢
        injection h with h
        rw [h]
    | some values =>
        rw [hl] at h
        simp only [] at h ⊢
        cases hc : option.Form2Config env values uid with
        | error err =>
            rw [hc] at h
            simp only [] at h ⊢
            injection h with h
            rw [h]
        | ok c =>
            rw [hc] at h
            simp only [] at h ⊢
            by_cases hv : isVideoKey index
            · rw [if_pos hv] at h
              rw [if_pos hv]
              cases option with
              | int64 o => simp only [] at h; cases h
              | photosTimezone o => simp only [] at h ⊢; injection h with h; rw [h]
              | photos o => simp only [] at h ⊢; injection h with h; rw [h]
            · rw [if_neg hv] at h
              cases h

/-- An iteration that goes through: the option does not fail on the form, the line of the option
is appended when it is required, only the key of the option leaves the form, and only the
variable the key names changes. -/
theorem requiredStep_ok (env : Env) (uid : Nat) (st st1 : ReqState) (index : String)
    (option : MakevideoOptioner) (h : requiredStep env uid st index option = .ok st1) :
    requiredFailure env uid st.form index option = none ∧
    st1.config = appendLines st.config (requiredLines env uid st.form [(index, option)]) ∧
    (∀ k, k ≠ index → st1.form.lookup k = st.form.lookup k) ∧
    (∀ k, isVideoKey k → k ≠ index → st1.video k = st.video k) ∧
    (option.Getrequired = true → isVideoKey index →
      ∃ o values, option = .int64 o ∧ st.form.lookup index = some values ∧
        st1.video index = (o.Form2Int64 values).1) := by
  unfold requiredStep at h
  unfold requiredFailure requiredLines
  by_cases hr : ¬ option.Getrequired
  · rw [if_pos hr] at h
    injection h with h
    subst h
    rw [if_pos hr, List.filter_cons_of_neg (by simpa using hr)]
    exact ⟨rfl, rfl, fun _ _ => rfl, fun _ _ _ => rfl, fun h => absurd h hr⟩
  · rw [if_neg hr] at h
    rw [if_neg hr, List.filter_cons_of_pos (by simpa using hr)]
    cases hl : st.form.lookup index with
    | none =>
        rw [hl] at h
        cases h
    | some values =>
        rw [hl] at h
        simp only [] at h
        cases hc : option.Form2Config env values uid with
        | error err =>
            rw [hc] at h
            cases h
        | ok c =>
            rw [hc] at h
            simp only [] at h
            have hline : appendLines st.config
                (List.map (fun e => requiredLine env uid st.form e.1 e.2)
                  ((index, option) :: List.filter (fun e => e.2.Getrequired) [])) =
                st.config ++ (c ++ "\n") := by
              simp [appendLines, requiredLine, hl, hc]
            rw [hline]
            by_cases hv : isVideoKey index
            · rw [if_pos hv] at h
              rw [if_pos hv]
              cases option with
              | int64 o =>
                  simp only [] at h
                  injection h with h
                  subst h
                  refine ⟨by simp [hc], rfl, fun k hk => Form.lookup_delete _ _ _ hk, ?_, ?_⟩
                  · intro k _ hk
                    simp only [ReqState.video]
                    by_cases h1 : k = "video_width"
                    · have : ¬ index = "video_width" := fun e => hk (h1.trans e.symm)
                      simp [h1, this]
                    · by_cases h2 : k = "video_height"
                      · have : ¬ index = "video_height" := fun e => hk (h2.trans e.symm)
                        simp [h2, this]
                      · have h3 : k = "video_border" := by
                          rcases ‹isVideoKey k› with h | h | h
                          · exact absurd h h1
                          · exact absurd h h2
                          · exact h
                        have : ¬ index = "video_border" := fun e => hk (h3.trans e.symm)
                        simp [h1, h2, this]
                  · intro _ _
                    refine ⟨o, values, rfl, rfl, ?_⟩
                    simp only [ReqState.video]
                    rcases hv with h | h | h <;> subst h <;> simp
              | photosTimezone o => cases h
              | photos o => cases h
            · rw [if_neg hv] at h
              rw [if_neg hv]
              injection h with h
              subst h
              exact ⟨by simp [hc], rfl, fun k hk => Form.lookup_delete _ _ _ hk, fun _ _ _ => rfl,
                fun _ h => absurd h hv⟩

theorem appendLines_append (config : String) (l1 l2 : List String) :
    appendLines config (l1 ++ l2) = appendLines (appendLines config l1) l2 := by
  simp [appendLines, List.foldl_append]

theorem requiredLines_cons (env : Env) (uid : Nat) (form : Form) (e : String × MakevideoOptioner)
    (rest : List (String × MakevideoOptioner)) :
    requiredLines env uid form (e :: rest) =
      requiredLines env uid form [e] ++ requiredLines env uid form rest := by
  unfold requiredLines
  by_cases h : e.2.Getrequired = true
  · simp [List.filter_cons_of_pos, h]
  · simp [List.filter_cons_of_neg, h]

theorem requiredLines_congr (env : Env) (uid : Nat) (form1 form2 : Form)
    (options : List (String × MakevideoOptioner))
    (h : ∀ e ∈ options, form1.lookup e.1 = form2.lookup e.1) :
    requiredLines env uid form1 options = requiredLines env uid form2 options := by
  unfold requiredLines
  apply List.map_congr_left
  intro e he
  exact requiredLine_congr env uid form1 form2 e.1 e.2 (h e (List.mem_of_mem_filter he))

/-- When the loop aborts, it aborts with the failure of the first option, in the order of the
iteration, that fails on the submitted form. -/
theorem requiredLoop_error (env : Env) (uid : Nat) (options : List (String × MakevideoOptioner))
    (st : ReqState) (a : Abort) (hnd : (options.map Prod.fst).Nodup)
    (h : requiredLoop env uid options st = .error a) :
    ∃ pre index option post, options = pre ++ (index, option) :: post ∧
      (∀ e ∈ pre, requiredFailure env uid st.form e.1 e.2 = none) ∧
      requiredFailure env uid st.form index option = some a := by
  induction options generalizing st with
  | nil => cases h
  | cons e rest ih =>
      obtain ⟨i, o⟩ := e
      unfold requiredLoop at h
      rw [List.map_cons, List.nodup_cons] at hnd
      cases hstep : requiredStep env uid st i o with
      | error a' =>
          rw [hstep] at h
          injection h with h
          subst h
          exact ⟨[], i, o, rest, rfl, fun _ he => absurd he (List.not_mem_nil _),
            requiredStep_error env uid st i o _ hstep⟩
      | ok st1 =>
          rw [hstep] at h
          obtain ⟨hnone, _, hform, _, _⟩ := requiredStep_ok env uid st st1 i o hstep
          obtain ⟨pre, index, option, post, hrest, hpre, hfail⟩ := ih st1 hnd.2 h
          have hkey : ∀ e ∈ rest, st1.form.lookup e.1 = st.form.lookup e.1 := by
            intro e he
            apply hform
            intro heq
            have hmem : e.1 ∈ rest.map Prod.fst := List.mem_map_of_mem Prod.fst he
            rw [heq] at hmem
            exact hnd.1 hmem
          refine ⟨(i, o) :: pre, index, option, post, by rw [hrest]; rfl, ?_, ?_⟩
          · intro e he
            rcases List.mem_cons.1 he with rfl | he
            · exact hnone
            · rw [← requiredFailure_congr env uid st1.form st.form e.1 e.2
                (hkey e (hrest ▸ List.mem_append_left _ he))]
              exact hpre e he
          · rw [← requiredFailure_congr env uid st1.form st.form index option
              (hkey (index, option) (hrest ▸ List.mem_append_right _ (List.mem_cons_self _ _)))]
            exact hfail

/-- When the loop goes through: no option fails on the submitted form, the lines of the required
options are appended in the order of the iteration, the other keys stay in the form, and each of
the three variables holds the number re-parsed from the values of its key. -/
theorem requiredLoop_ok (env : Env) (uid : Nat) (options : List (String × MakevideoOptioner))
    (st st' : ReqState) (hnd : (options.map Prod.fst).Nodup)
    (h : requiredLoop env uid options st = .ok st') :
    (∀ e ∈ options, requiredFailure env uid st.form e.1 e.2 = none) ∧
    st'.config = appendLines st.config (requiredLines env uid st.form options) ∧
    (∀ k, k ∉ options.map Prod.fst → st'.form.lookup k = st.form.lookup k) ∧
    (∀ k, isVideoKey k → k ∉ options.map Prod.fst → st'.video k = st.video k) ∧
    (∀ e ∈ options, e.2.Getrequired = true → isVideoKey e.1 →
      ∃ o values, e.2 = .int64 o ∧ st.form.lookup e.1 = some values ∧
        st'.video e.1 = (o.Form2Int64 values).1) := by
  induction options generalizing st with
  | nil =>
      injection h with h
      subst h
      exact ⟨fun _ he => absurd he (List.not_mem_nil _), rfl, fun _ _ => rfl, fun _ _ _ => rfl,
        fun _ he => absurd he (List.not_mem_nil _)⟩
  | cons e rest ih =>
      obtain ⟨i, o⟩ := e
      unfold requiredLoop at h
      rw [List.map_cons, List.nodup_cons] at hnd
      cases hstep : requiredStep env uid st i o with
      | error a' =>
          rw [hstep] at h
          cases h
      | ok st1 =>
          rw [hstep] at h
          obtain ⟨hnone, hconf, hform, hvid, hnum⟩ := requiredStep_ok env uid st st1 i o hstep
          obtain ⟨ihnone, ihconf, ihform, ihvid, ihnum⟩ := ih st1 hnd.2 h
          have hkey : ∀ e ∈ rest, st1.form.lookup e.1 = st.form.lookup e.1 := by
            intro e he
            apply hform
            intro heq
            have hmem : e.1 ∈ rest.map Prod.fst := List.mem_map_of_mem Prod.fst he
            rw [heq] at hmem
            exact hnd.1 hmem
          refine ⟨?_, ?_, ?_, ?_, ?_⟩
          · intro e he
            rcases List.mem_cons.1 he with rfl | he
            · exact hnone
            · rw [← requiredFailure_congr env uid st1.form st.form e.1 e.2 (hkey e he)]
              exact ihnone e he
          · rw [ihconf, hconf, requiredLines_cons env uid st.form (i, o) rest,
              appendLines_append, requiredLines_congr env uid st1.form st.form rest hkey]
          · intro k hk
            rw [List.map_cons, List.mem_cons, not_or] at hk
            rw [ihform k hk.2, hform k hk.1]
          · intro k hv hk
            rw [List.map_cons, List.mem_cons, not_or] at hk
            rw [ihvid k hv hk.2, hvid k hv hk.1]
          · intro e he hreq hv
            rcases List.mem_cons.1 he with rfl | he
            · obtain ⟨o', values, ho, hl, hn⟩ := hnum hreq hv
              exact ⟨o', values, ho, hl, by rw [ihvid _ hv hnd.1, hn]⟩
            · obtain ⟨o', values, ho, hl, hn⟩ := ihnum e he hreq hv
              exact ⟨o', values, ho, by rw [← hkey e he]; exact hl, hn⟩

/-- An option that fails on the form makes the loop abort with its failure, when no option before
it in the iteration fails. -/
theorem requiredLoop_first_failure (env : Env) (uid : Nat)
    (pre : List (String × MakevideoOptioner)) (index : String) (option : MakevideoOptioner)
    (post : List (String × MakevideoOptioner)) (st : ReqState) (a : Abort)
    (hnd : ((pre ++ (index, option) :: post).map Prod.fst).Nodup)
    (hpre : ∀ e ∈ pre, requiredFailure env uid st.form e.1 e.2 = none)
    (hfail : requiredFailure env uid st.form index option = some a) :
    requiredLoop env uid (pre ++ (index, option) :: post) st = .error a := by
  induction pre generalizing st with
  | nil =>
      simp only [List.nil_append]
      unfold requiredLoop
      cases hstep : requiredStep env uid st index option with
      | error a' =>
          have := requiredStep_error env uid st index option a' hstep
          rw [hfail] at this
          injection this with this
          rw [this]
      | ok st1 =>
          have := (requiredStep_ok env uid st st1 index option hstep).1
          rw [hfail] at this
          cases this
  | cons e rest ih =>
      obtain ⟨i, o⟩ := e
      simp only [List.cons_append]
      unfold requiredLoop
      rw [List.cons_append, List.map_cons, List.nodup_cons] at hnd
      cases hstep : requiredStep env uid st i o with
      | error a' =>
          have := requiredStep_error env uid st i o a' hstep
          rw [hpre (i, o) (List.mem_cons_self _ _)] at this
          cases this
      | ok st1 =>
          simp only []
          obtain ⟨_, _, hform, _, _⟩ := requiredStep_ok env uid st st1 i o hstep
          have hkey : ∀ e ∈ rest ++ (index, option) :: post,
              st1.form.lookup e.1 = st.form.lookup e.1 := by
            intro e he
            apply hform
            intro heq
            have hmem : e.1 ∈ (rest ++ (index, option) :: post).map Prod.fst :=
              List.mem_map_of_mem Prod.fst he
            rw [heq] at hmem
            exact hnd.1 hmem
          apply ih st1 hnd.2
          · intro e he
            rw [requiredFailure_congr env uid st1.form st.form e.1 e.2
              (hkey e (List.mem_append_left _ he))]
            exact hpre e (List.mem_cons_of_mem _ he)
          · rw [requiredFailure_congr env uid st1.form st.form index option
              (hkey _ (List.mem_append_right _ (List.mem_cons_self _ _)))]
            exact hfail

/-! ## The registry -/

/-- The three required options, as `makevideoOptionsInit` leaves them. -/
theorem registry_required (photosLink : String) :
    (makevideoOptionsInit photosLink).makevideoOptions.filter (fun e => e.2.Getrequired) =
      [ ("video_width", .int64 videoWidthOption), ("video_height", .int64 videoHeightOption),
        ("video_border", .int64 videoBorderOption) ] := by
  rfl

theorem registry_keys (photosLink : String) :
    (makevideoOptionsInit photosLink).makevideoOptions.map Prod.fst =
      ["video_width", "video_height", "video_border", "video_limit_secs", "photos_dir",
        "photos_timezone", "photos_show_secs"] := by
  rfl

/-- Every ordering of the registry has distinct keys. -/
theorem registry_perm_nodup (photosLink : String) (options : List (String × MakevideoOptioner))
    (hperm : options.Perm (makevideoOptionsInit photosLink).makevideoOptions) :
    (options.map Prod.fst).Nodup := by
  rw [(hperm.map Prod.fst).nodup_iff, registry_keys]
  decide

/-- A required option of the registry is an `Int64Option` with bounds 1 and 640, registered under
one of the three video keys, which is also its config name. -/
theorem registry_required_mem (photosLink : String) (options : List (String × MakevideoOptioner))
    (hperm : options.Perm (makevideoOptionsInit photosLink).makevideoOptions)
    (index : String) (option : MakevideoOptioner) (hmem : (index, option) ∈ options)
    (hreq : option.Getrequired = true) :
    isVideoKey index ∧ ∃ o : Int64Option, option = .int64 o ∧ o.min = 1 ∧ o.max = 640 ∧
      o.configName = index := by
  have h1 : (index, option) ∈
      (makevideoOptionsInit photosLink).makevideoOptions.filter (fun e => e.2.Getrequired) :=
    List.mem_filter.2 ⟨hperm.mem_iff.1 hmem, hreq⟩
  rw [registry_required] at h1
  simp only [List.mem_cons, Prod.mk.injEq, List.mem_nil_iff, or_false] at h1
  rcases h1 with ⟨rfl, rfl⟩ | ⟨rfl, rfl⟩ | ⟨rfl, rfl⟩
  · exact ⟨Or.inl rfl, _, rfl, rfl, rfl, rfl⟩
  · exact ⟨Or.inr (Or.inl rfl), _, rfl, rfl, rfl, rfl⟩
  · exact ⟨Or.inr (Or.inr rfl), _, rfl, rfl, rfl, rfl⟩

/-- Each of the three video keys has a required option in every ordering of the registry. -/
theorem registry_video_key_mem (photosLink : String) (options : List (String × MakevideoOptioner))
    (hperm : options.Perm (makevideoOptionsInit photosLink).makevideoOptions)
    (index : String) (hv : isVideoKey index) :
    ∃ o : Int64Option, (index, MakevideoOptioner.int64 o) ∈ options ∧ o.required = true ∧
      o.min = 1 ∧ o.max = 640 ∧ o.configName = index := by
  have hsub : ∀ e, e ∈
      (makevideoOptionsInit photosLink).makevideoOptions.filter (fun e => e.2.Getrequired) →
      e ∈ options := fun e he => hperm.mem_iff.2 (List.mem_of_mem_filter he)
  rw [registry_required] at hsub
  rcases hv with rfl | rfl | rfl
  · exact ⟨_, hsub _ (List.mem_cons_self _ _), rfl, rfl, rfl, rfl⟩
  · exact ⟨_, hsub _ (List.mem_cons_of_mem _ (List.mem_cons_self _ _)), rfl, rfl, rfl, rfl⟩
  · exact ⟨_, hsub _ (List.mem_cons_of_mem _ (List.mem_cons_of_mem _ (List.mem_cons_self _ _))),
      rfl, rfl, rfl, rfl⟩

/-- Once `Form2Config` has succeeded, the second parse by `Form2Int64` returns no error, and its
number is the one whose digits are in the line. -/
theorem Int64Option.Form2Int64_of_Form2Config (o : Int64Option) (values : List String)
    (uid : Nat) (c : String) (h : o.Form2Config values uid = .ok c) :
    ∃ n, o.Form2Int64 values = (n, none) ∧ o.min ≤ n ∧ (o.max = 0 ∨ n ≤ o.max) ∧
      c = o.configName ++ "=" ++ toString n ∧
      ∃ s rest, values = s :: rest ∧ ParsesAsInt64 s n := by
  cases values with
  | nil => cases h
  | cons s rest =>
      obtain ⟨n, hp, h1, h2, hc⟩ := (Int64Option.Form2Config_ok_iff o s rest uid c).1 h
      refine ⟨n, ?_, h1, h2, hc, s, rest, rfl, hp⟩
      simp only [Int64Option.Form2Int64, BaseOption.Form2String]
      exact (ParseInt_ok_iff s n).2 hp

/-- A required integer option does not fail on the form exactly when a number within its bounds
is submitted under its key. -/
theorem requiredFailure_int64_none_iff (env : Env) (uid : Nat) (form : Form) (index : String)
    (o : Int64Option) (hreq : o.required = true) :
    requiredFailure env uid form index (.int64 o) = none ↔
      ∃ s rest n, form.lookup index = some (s :: rest) ∧ ParsesAsInt64 s n ∧ o.min ≤ n ∧
        (o.max = 0 ∨ n ≤ o.max) := by
  unfold requiredFailure
  have hr : ¬ ¬ (MakevideoOptioner.int64 o).Getrequired = true := by
    simpa [MakevideoOptioner.Getrequired, MakevideoOptioner.toBaseOption] using hreq
  rw [if_neg hr]
  cases hl : form.lookup index with
  | none => simp
  | some values =>
      simp only [MakevideoOptioner.Form2Config]
      cases hc : o.Form2Config values uid with
      | error err =>
          simp only [false_iff, reduceCtorEq]
          rintro ⟨s, rest, n, hv, hp, h1, h2⟩
          injection hv with hv
          subst hv
          rw [(Int64Option.Form2Config_ok_iff o s rest uid _).2 ⟨n, hp, h1, h2, rfl⟩] at hc
          cases hc
      | ok c =>
          obtain ⟨n, _, h1, h2, _, s, rest, hv, hp⟩ :=
            Int64Option.Form2Int64_of_Form2Config o values uid c hc
          simp only [ite_self, true_iff]
          exact ⟨s, rest, n, by rw [hv], hp, h1, h2⟩

/-- The line and the re-parsed number of an integer option whose submitted number is valid. -/
theorem requiredLine_int64 (env : Env) (uid : Nat) (form : Form) (index : String)
    (o : Int64Option) (s : String) (rest : List String) (n : Int)
    (hl : form.lookup index = some (s :: rest)) (hp : ParsesAsInt64 s n) (h1 : o.min ≤ n)
    (h2 : o.max = 0 ∨ n ≤ o.max) :
    requiredLine env uid form index (.int64 o) = o.configName ++ "=" ++ toString n ∧
      o.Form2Int64 (s :: rest) = (n, none) := by
  have hc := (Int64Option.Form2Config_ok_iff o s rest uid _).2 ⟨n, hp, h1, h2, rfl⟩
  constructor
  · simp only [requiredLine, hl, MakevideoOptioner.Form2Config, hc]
  · simp only [Int64Option.Form2Int64, BaseOption.Form2String]
    exact (ParseInt_ok_iff s n).2 hp

/-- An integer that parses from a string is unique. -/
theorem ParsesAsInt64_unique (s : String) (n m : Int) (hn : ParsesAsInt64 s n)
    (hm : ParsesAsInt64 s m) : n = m := by
  have h1 := (ParseInt_ok_iff s n).2 hn
  have h2 := (ParseInt_ok_iff s m).2 hm
  rw [h1] at h2
  injection h2

/-- The multiplication `video_border * 2` does not wrap for a border within its bounds. -/
theorem wrapInt64_double (b : Int) (h1 : 1 ≤ b) (h2 : b ≤ 640) : wrapInt64 (b * 2) = 2 * b := by
  unfold wrapInt64
  omega

/-! ## C2 -/

/-- An option that is not required never fails in the required loop. -/
theorem requiredFailure_not_required (env : Env) (uid : Nat) (form : Form) (index : String)
    (option : MakevideoOptioner) (h : ¬ option.Getrequired = true) :
    requiredFailure env uid form index option = none := by
  unfold requiredFailure
  rw [if_pos h]

/-- With valid numbers submitted under the three video keys, the required loop goes through for
every ordering of the registry, and the three variables hold these numbers. -/
theorem requiredLoop_valid (env : Env) (uid : Nat) (photosLink : String)
    (options : List (String × MakevideoOptioner)) (st0 : ReqState)
    (sw sh sb : String) (rw rh rb : List String) (w h b : Int)
    (hperm : options.Perm (makevideoOptionsInit photosLink).makevideoOptions)
    (hlw : st0.form.lookup "video_width" = some (sw :: rw)) (hpw : ParsesAsInt64 sw w)
    (hw : 1 ≤ w ∧ w ≤ 640)
    (hlh : st0.form.lookup "video_height" = some (sh :: rh)) (hph : ParsesAsInt64 sh h)
    (hh : 1 ≤ h ∧ h ≤ 640)
    (hlb : st0.form.lookup "video_border" = some (sb :: rb)) (hpb : ParsesAsInt64 sb b)
    (hb : 1 ≤ b ∧ b ≤ 640) :
    ∃ st, requiredLoop env uid options st0 = .ok st ∧
      st.video_width = w ∧ st.video_height = h ∧ st.video_border = b := by
  have hnd := registry_perm_nodup photosLink options hperm
  have hnone : ∀ e ∈ options, requiredFailure env uid st0.form e.1 e.2 = none := by
    rintro ⟨index, option⟩ he
    by_cases hreq : option.Getrequired = true
    · obtain ⟨hv, o, rfl, hmin, hmax, _⟩ :=
        registry_required_mem photosLink options hperm index option he hreq
      rw [requiredFailure_int64_none_iff env uid st0.form index o hreq, hmin, hmax]
      rcases hv with rfl | rfl | rfl
      · exact ⟨sw, rw, w, hlw, hpw, hw.1, Or.inr hw.2⟩
      · exact ⟨sh, rh, h, hlh, hph, hh.1, Or.inr hh.2⟩
      · exact ⟨sb, rb, b, hlb, hpb, hb.1, Or.inr hb.2⟩
    · exact requiredFailure_not_required env uid st0.form index option hreq
  cases hres : requiredLoop env uid options st0 with
  | error a =>
      obtain ⟨pre, index, option, post, hopts, _, hfail⟩ :=
        requiredLoop_error env uid options st0 a hnd hres
      have hmem : (index, option) ∈ options := by
        rw [hopts]
        exact List.mem_append_right _ (List.mem_cons_self _ _)
      rw [hnone _ hmem] at hfail
      cases hfail
  | ok st =>
      obtain ⟨_, _, _, _, hnum⟩ := requiredLoop_ok env uid options st0 st hnd hres
      have key : ∀ (index s : String) (rest : List String) (n : Int), isVideoKey index →
          st0.form.lookup index = some (s :: rest) → ParsesAsInt64 s n → st.video index = n := by
        intro index s rest n hv hl hp
        obtain ⟨o, hmem, hreq, _⟩ := registry_video_key_mem photosLink options hperm index hv
        obtain ⟨o', values, ho, hl', hn⟩ := hnum (index, .int64 o) hmem hreq hv
        rw [hl] at hl'
        injection hl' with hl'
        subst hl'
        rw [hn]
        simp only [Int64Option.Form2Int64, BaseOption.Form2String]
        rw [(ParseInt_ok_iff s n).2 hp]
      refine ⟨st, rfl, ?_, ?_, ?_⟩
      · exact key "video_width" sw rw w (Or.inl rfl) hlw hpw
      · exact key "video_height" sh rh h (Or.inr (Or.inl rfl)) hlh hph
      · exact key "video_border" sb rb b (Or.inr (Or.inr rfl)) hlb hpb

/-- C2. For every ordering of the registry and every form in which the numbers `w`, `h`, `b`
submitted as video_width, video_height, video_border each pass their own validation
(between 1 and 640), the required loop goes through, the variables compared by the special
check are exactly `w`, `h` and `b`, and the check rejects, with its own message, if and only if
`2 * b ≥ w` or `2 * b ≥ h`; in that case the whole assembly returns this rejection. The second
parse by `Form2Int64` cannot fail once `Form2Config` has succeeded. -/
theorem crossCheck_rule (env : Env) (uid : Nat) (photosLink : String)
    (options : List (String × MakevideoOptioner)) (gpx_name output_dir : String) (form : Form)
    (activity : Except GoError Activity)
    (sw sh sb : String) (rw rh rb : List String) (w h b : Int)
    (hperm : options.Perm (makevideoOptionsInit photosLink).makevideoOptions)
    (hlw : form.lookup "video_width" = some (sw :: rw)) (hpw : ParsesAsInt64 sw w)
    (hw : 1 ≤ w ∧ w ≤ 640)
    (hlh : form.lookup "video_height" = some (sh :: rh)) (hph : ParsesAsInt64 sh h)
    (hh : 1 ≤ h ∧ h ≤ 640)
    (hlb : form.lookup "video_border" = some (sb :: rb)) (hpb : ParsesAsInt64 sb b)
    (hb : 1 ≤ b ∧ b ≤ 640) :
    (∃ st, requiredLoop env uid options
        { config := configHead env gpx_name, form := form,
          video_width := 0, video_height := 0, video_border := 0 } = .ok st ∧
      st.video_width = w ∧ st.video_height = h ∧ st.video_border = b ∧
      (crossCheck st = .error (.showError "你把边框宽度设置这么大浏览器会爆炸的") ↔
        (2 * b ≥ w ∨ 2 * b ≥ h)) ∧
      (crossCheck st = .ok st ↔ ¬ (2 * b ≥ w ∨ 2 * b ≥ h))) ∧
    ((2 * b ≥ w ∨ 2 * b ≥ h) →
      assembleConfig env { makevideoOptionsInit photosLink with makevideoOptions := options }
          uid gpx_name output_dir form activity =
        .error (.showError "你把边框宽度设置这么大浏览器会爆炸的")) ∧
    (∀ (o : Int64Option) (values : List String) (c : String),
      o.Form2Config values uid = .ok c →
        ∃ n, o.Form2Int64 values = (n, none) ∧ c = o.configName ++ "=" ++ toString n) := by
  obtain ⟨st, hst, h1, h2, h3⟩ := requiredLoop_valid env uid photosLink options
    { config := configHead env gpx_name, form := form,
      video_width := 0, video_height := 0, video_border := 0 }
    sw sh sb rw rh rb w h b hperm hlw hpw hw hlh hph hh hlb hpb hb
  have hcheck : crossCheck st =
      if 2 * b ≥ w ∨ 2 * b ≥ h then
        .error (.showError "你把边框宽度设置这么大浏览器会爆炸的")
      else .ok st := by
    simp only [crossCheck, h1, h2, h3, wrapInt64_double b hb.1 hb.2]
  refine ⟨⟨st, hst, h1, h2, h3, ?_, ?_⟩, ?_, ?_⟩
  · rw [hcheck]
    by_cases hc : 2 * b ≥ w ∨ 2 * b ≥ h
    · simp [hc]
    · simp [hc]
  · rw [hcheck]
    by_cases hc : 2 * b ≥ w ∨ 2 * b ≥ h
    · simp [hc]
    · simp [hc]
  · intro hc
    simp only [assembleConfig, hst, hcheck, if_pos hc]
  · intro o values c hcfg
    obtain ⟨n, hn, _, _, hc, _⟩ := Int64Option.Form2Int64_of_Form2Config o values uid c hcfg
    exact ⟨n, hn, hc⟩

/-- The rule of C2 at width 100 and height 100: border 50 is rejected, border 49 passes. -/
theorem crossCheck_rule_witness :
    assembleConfig sampleEnv
        { makevideoOptionsInit "" with makevideoOptions := (makevideoOptionsInit "").makevideoOptions }
        7 "g2v.gpx" "output"
        [("video_width", ["100"]), ("video_height", ["100"]), ("video_border", ["50"])]
        (.ok { StartDate := 0, StartDateLocal := 0 }) =
      .error (.showError "你把边框宽度设置这么大浏览器会爆炸的") ∧
    ∃ st, requiredLoop sampleEnv 7 (makevideoOptionsInit "").makevideoOptions
        { config := configHead sampleEnv "g2v.gpx",
          form := [("video_width", ["100"]), ("video_height", ["100"]), ("video_border", ["49"])],
          video_width := 0, video_height := 0, video_border := 0 } = .ok st ∧
      crossCheck st = .ok st :=
  ⟨(crossCheck_rule sampleEnv 7 "" (makevideoOptionsInit "").makevideoOptions "g2v.gpx" "output"
      [("video_width", ["100"]), ("video_height", ["100"]), ("video_border", ["50"])]
      (.ok { StartDate := 0, StartDateLocal := 0 }) "100" "100" "50" [] [] [] 100 100 50
      (List.Perm.refl _)
      rfl ((ParseInt_ok_iff "100" 100).1 (by decide)) (by decide)
      rfl ((ParseInt_ok_iff "100" 100).1 (by decide)) (by decide)
      rfl ((ParseInt_ok_iff "50" 50).1 (by decide)) (by decide)).2.1 (by decide),
   let ⟨st, hst, _, _, _, _, hok⟩ :=
      (crossCheck_rule sampleEnv 7 "" (makevideoOptionsInit "").makevideoOptions "g2v.gpx" "output"
        [("video_width", ["100"]), ("video_height", ["100"]), ("video_border", ["49"])]
        (.ok { StartDate := 0, StartDateLocal := 0 }) "100" "100" "49" [] [] [] 100 100 49
        (List.Perm.refl _)
        rfl ((ParseInt_ok_iff "100" 100).1 (by decide)) (by decide)
        rfl ((ParseInt_ok_iff "100" 100).1 (by decide)) (by decide)
        rfl ((ParseInt_ok_iff "49" 49).1 (by decide)) (by decide)).1
   ⟨st, hst, hok.2 (by decide)⟩⟩

/-! ## C6 -/

theorem requiredFailure_missing (env : Env) (uid : Nat) (form : Form) (index : String)
    (option : MakevideoOptioner) (hreq : option.Getrequired = true)
    (hl : form.lookup index = none) :
    requiredFailure env uid form index option =
      some (.showError (option.GetshortInfo ++ "没有设置")) := by
  unfold requiredFailure
  rw [if_neg (by simpa using hreq), hl]

theorem requiredFailure_invalid (env : Env) (uid : Nat) (form : Form) (index : String)
    (option : MakevideoOptioner) (values : List String) (err : GoError)
    (hreq : option.Getrequired = true) (hl : form.lookup index = some values)
    (hc : option.Form2Config env values uid = .error err) :
    requiredFailure env uid form index option =
      some (.showError (option.GetshortInfo ++ err.Error env.Quote)) := by
  unfold requiredFailure
  rw [if_neg (by simpa using hreq), hl]
  simp only [hc]

/-- The failure of a required integer option is one of the two messages. -/
theorem requiredFailure_int64_some (env : Env) (uid : Nat) (form : Form) (index : String)
    (o : Int64Option) (a : Abort)
    (h : requiredFailure env uid form index (.int64 o) = some a) :
    (form.lookup index = none ∧
      a = .showError ((MakevideoOptioner.int64 o).GetshortInfo ++ "没有设置")) ∨
    ∃ values err, form.lookup index = some values ∧
      (MakevideoOptioner.int64 o).Form2Config env values uid = .error err ∧
      a = .showError ((MakevideoOptioner.int64 o).GetshortInfo ++ err.Error env.Quote) := by
  unfold requiredFailure at h
  split at h
  · cases h
  · cases hl : form.lookup index with
    | none =>
        rw [hl] at h
        injection h with h
        exact Or.inl ⟨rfl, h.symm⟩
    | some values =>
        rw [hl] at h
        simp only [] at h
        cases hc : (MakevideoOptioner.int64 o).Form2Config env values uid with
        | error err =>
            rw [hc] at h
            injection h with h
            exact Or.inr ⟨values, err, rfl, hc, h.symm⟩
        | ok c =>
            rw [hc] at h
            simp at h

/-- C6 as stated fails when two required options are bad: in the order of registration, with
`video_width=abc` and no `video_height`, the key `video_height` is absent from the form, but the
assembly fails with the parse error of `video_width`, the first bad option of the iteration, and
not with the `shortInfo` of `video_height` followed by the `not set` message. -/
theorem requiredBlock_reports_first_failure :
    List.lookup "video_height" [("video_width", ["abc"]), ("video_border", ["10"])] = none ∧
    requiredLoop sampleEnv 7 (makevideoOptionsInit "").makevideoOptions
        { config := configHead sampleEnv "g2v.gpx",
          form := [("video_width", ["abc"]), ("video_border", ["10"])],
          video_width := 0, video_height := 0, video_border := 0 } =
      .error (.showError "视频宽度strconv.ParseInt: parsing \"abc\": invalid syntax") ∧
    requiredLoop sampleEnv 7 (makevideoOptionsInit "").makevideoOptions
        { config := configHead sampleEnv "g2v.gpx",
          form := [("video_width", ["abc"]), ("video_border", ["10"])],
          video_width := 0, video_height := 0, video_border := 0 } ≠
      .error (.showError ((MakevideoOptioner.int64 videoHeightOption).GetshortInfo ++
        "没有设置")) := by
  refine ⟨rfl, rfl, ?_⟩
  intro h
  have h2 : requiredLoop sampleEnv 7 (makevideoOptionsInit "").makevideoOptions
      { config := configHead sampleEnv "g2v.gpx",
        form := [("video_width", ["abc"]), ("video_border", ["10"])],
        video_width := 0, video_height := 0, video_border := 0 } =
      .error (.showError "视频宽度strconv.ParseInt: parsing \"abc\": invalid syntax") := rfl
  rw [h2] at h
  injection h with h
  injection h with h
  exact absurd h (by decide)

/-- C6, amended. The required block, for every ordering `options` of the registry (the order in
which the option map is iterated) and every form. The assembly fails with the message of the
first bad required option of the iteration, not with the message of every bad one.
(1) If some required option is missing from the form or has values its `Form2Config` rejects,
the loop fails, and it fails with the `shortInfo` of the first such option of the iteration (the
required options iterated before it are valid) followed by the `not set` message (the option is
missing) or by the error text (its `Form2Config` fails).
(2) Conversely, a required option whose key is missing, or whose `Form2Config` fails, gives the
failure whenever the required options iterated before it are valid.
(3) When the loop goes through, the config is the head followed by exactly one line per required
option, `video_width=w`, `video_height=h` and `video_border=b` for the numbers submitted under
these keys, in some order, and by no other line. -/
theorem requiredBlock_assembly (env : Env) (uid : Nat) (photosLink : String)
    (options : List (String × MakevideoOptioner)) (gpx_name : String) (form : Form)
    (hperm : options.Perm (makevideoOptionsInit photosLink).makevideoOptions) :
    ((∃ index option, (index, option) ∈ options ∧ option.Getrequired = true ∧
        (form.lookup index = none ∨ ∃ values err, form.lookup index = some values ∧
          option.Form2Config env values uid = .error err)) →
      ∃ pre index option post, options = pre ++ (index, option) :: post ∧
        option.Getrequired = true ∧
        (∀ e ∈ pre, e.2.Getrequired = true →
          ∃ values c, form.lookup e.1 = some values ∧
            e.2.Form2Config env values uid = .ok c) ∧
        ((form.lookup index = none ∧
            requiredLoop env uid options
                { config := configHead env gpx_name, form := form,
                  video_width := 0, video_height := 0, video_border := 0 } =
              .error (.showError (option.GetshortInfo ++ "没有设置"))) ∨
          ∃ values err, form.lookup index = some values ∧
            option.Form2Config env values uid = .error err ∧
            requiredLoop env uid options
                { config := configHead env gpx_name, form := form,
                  video_width := 0, video_height := 0, video_border := 0 } =
              .error (.showError (option.GetshortInfo ++ err.Error env.Quote)))) ∧
    (∀ pre index option post, options = pre ++ (index, option) :: post →
      option.Getrequired = true →
      (∀ e ∈ pre, e.2.Getrequired = true →
        ∃ values c, form.lookup e.1 = some values ∧ e.2.Form2Config env values uid = .ok c) →
      (form.lookup index = none →
        requiredLoop env uid options
            { config := configHead env gpx_name, form := form,
              video_width := 0, video_height := 0, video_border := 0 } =
          .error (.showError (option.GetshortInfo ++ "没有设置"))) ∧
      (∀ values err, form.lookup index = some values →
        option.Form2Config env values uid = .error err →
        requiredLoop env uid options
            { config := configHead env gpx_name, form := form,
              video_width := 0, video_height := 0, video_border := 0 } =
          .error (.showError (option.GetshortInfo ++ err.Error env.Quote)))) ∧
    (∀ st, requiredLoop env uid options
          { config := configHead env gpx_name, form := form,
            video_width := 0, video_height := 0, video_border := 0 } = .ok st →
      ∃ (sw sh sb : String) (rw rh rb : List String) (w h b : Int) (lines : List String),
        form.lookup "video_width" = some (sw :: rw) ∧ ParsesAsInt64 sw w ∧
        form.lookup "video_height" = some (sh :: rh) ∧ ParsesAsInt64 sh h ∧
        form.lookup "video_border" = some (sb :: rb) ∧ ParsesAsInt64 sb b ∧
        st.config = appendLines (configHead env gpx_name) lines ∧
        lines.Perm ["video_width=" ++ toString w, "video_height=" ++ toString h,
          "video_border=" ++ toString b]) := by
  have hnd := registry_perm_nodup photosLink options hperm
  refine ⟨?_, ?_, ?_⟩
  · rintro ⟨index, option, hmem, hreq, hbad⟩
    have hsome : requiredFailure env uid form index option ≠ none := by
      rcases hbad with hl | ⟨values, err, hl, hc⟩
      · rw [requiredFailure_missing env uid form index option hreq hl]
        exact Option.some_ne_none _
      · rw [requiredFailure_invalid env uid form index option values err hreq hl hc]
        exact Option.some_ne_none _
    cases hres : requiredLoop env uid options
        { config := configHead env gpx_name, form := form,
          video_width := 0, video_height := 0, video_border := 0 } with
    | ok st =>
        exact absurd ((requiredLoop_ok env uid options _ st hnd hres).1 _ hmem) hsome
    | error a =>
        obtain ⟨pre, i, o, post, hopts, hprenone, hfail⟩ :=
          requiredLoop_error env uid options _ a hnd hres
        have hmem' : (i, o) ∈ options := by
          rw [hopts]
          exact List.mem_append_right _ (List.mem_cons_self _ _)
        have hreq' : o.Getrequired = true := by
          by_contra hn
          rw [requiredFailure_not_required env uid _ i o hn] at hfail
          cases hfail
        obtain ⟨_, io, rfl, _⟩ := registry_required_mem photosLink options hperm i o hmem' hreq'
        have hprevalid : ∀ e ∈ pre, e.2.Getrequired = true →
            ∃ values c, form.lookup e.1 = some values ∧
              e.2.Form2Config env values uid = .ok c := by
          rintro ⟨j, p⟩ he hr
          have hmemj : (j, p) ∈ options := by
            rw [hopts]
            exact List.mem_append_left _ he
          obtain ⟨_, jo, rfl, _⟩ := registry_required_mem photosLink options hperm j p hmemj hr
          obtain ⟨s, rest, n, hl, hp, h1, h2⟩ :=
            (requiredFailure_int64_none_iff env uid form j jo hr).1 (hprenone _ he)
          exact ⟨s :: rest, _, hl,
            (Int64Option.Form2Config_ok_iff jo s rest uid _).2 ⟨n, hp, h1, h2, rfl⟩⟩
        refine ⟨pre, i, _, post, hopts, hreq', hprevalid, ?_⟩
        rcases requiredFailure_int64_some env uid form i io a hfail with ⟨hl, ha⟩ |
          ⟨values, err, hl, hc, ha⟩
        · exact Or.inl ⟨hl, by rw [ha]⟩
        · exact Or.inr ⟨values, err, hl, hc, by rw [ha]⟩
  · intro pre index option post hopts hreq hpre
    have hpre' : ∀ e ∈ pre, requiredFailure env uid form e.1 e.2 = none := by
      rintro ⟨i, o⟩ he
      by_cases hr : o.Getrequired = true
      · have hmem : (i, o) ∈ options := by
          rw [hopts]
          exact List.mem_append_left _ he
        obtain ⟨_, io, rfl, _⟩ := registry_required_mem photosLink options hperm i o hmem hr
        obtain ⟨values, c, hl, hc⟩ := hpre (i, _) he hr
        obtain ⟨n, _, h1, h2, _, s, rest, hv, hp⟩ :=
          Int64Option.Form2Int64_of_Form2Config io values uid c hc
        exact (requiredFailure_int64_none_iff env uid form i io hr).2
          ⟨s, rest, n, by rw [hl, hv], hp, h1, h2⟩
      · exact requiredFailure_not_required env uid form i o hr
    rw [hopts] at hnd
    constructor
    · intro hl
      rw [hopts]
      exact requiredLoop_first_failure env uid pre index option post _ _ hnd hpre'
        (requiredFailure_missing env uid form index option hreq hl)
    · intro values err hl hc
      rw [hopts]
      exact requiredLoop_first_failure env uid pre index option post _ _ hnd hpre'
        (requiredFailure_invalid env uid form index option values err hreq hl hc)
  · intro st hres
    obtain ⟨hnone, hconf, _, _, _⟩ := requiredLoop_ok env uid options _ st hnd hres
    have hsub : ∀ e, e ∈
        (makevideoOptionsInit photosLink).makevideoOptions.filter (fun e => e.2.Getrequired) →
        e ∈ options := fun e he => hperm.mem_iff.2 (List.mem_of_mem_filter he)
    rw [registry_required] at hsub
    have hw := hnone _ (hsub _ (List.mem_cons_self _ _))
    have hh := hnone _ (hsub _ (List.mem_cons_of_mem _ (List.mem_cons_self _ _)))
    have hb := hnone _
      (hsub _ (List.mem_cons_of_mem _ (List.mem_cons_of_mem _ (List.mem_cons_self _ _))))
    obtain ⟨sw, rw, w, hlw, hpw, hw1, hw2⟩ :=
      (requiredFailure_int64_none_iff env uid form _ videoWidthOption rfl).1 hw
    obtain ⟨sh, rh, h, hlh, hph, hh1, hh2⟩ :=
      (requiredFailure_int64_none_iff env uid form _ videoHeightOption rfl).1 hh
    obtain ⟨sb, rb, b, hlb, hpb, hb1, hb2⟩ :=
      (requiredFailure_int64_none_iff env uid form _ videoBorderOption rfl).1 hb
    refine ⟨sw, sh, sb, rw, rh, rb, w, h, b, requiredLines env uid form options,
      hlw, hpw, hlh, hph, hlb, hpb, hconf, ?_⟩
    have hp := (hperm.filter (fun e => e.2.Getrequired)).map
      (fun e => requiredLine env uid form e.1 e.2)
    rw [registry_required] at hp
    simp only [List.map_cons, List.map_nil] at hp
    rw [(requiredLine_int64 env uid form _ videoWidthOption sw rw w hlw hpw hw1 hw2).1,
      (requiredLine_int64 env uid form _ videoHeightOption sh rh h hlh hph hh1 hh2).1,
      (requiredLine_int64 env uid form _ videoBorderOption sb rb b hlb hpb hb1 hb2).1] at hp
    exact hp

/-- The required block of C6 at a form without `video_width`, in the order of registration. -/
theorem requiredBlock_assembly_witness :
    requiredLoop sampleEnv 7 (makevideoOptionsInit "").makevideoOptions
        { config := configHead sampleEnv "g2v.gpx",
          form := [("video_height", ["100"]), ("video_border", ["10"])],
          video_width := 0, video_height := 0, video_border := 0 } =
      .error (.showError ((MakevideoOptioner.int64 videoWidthOption).GetshortInfo ++ "没有设置")) :=
  ((requiredBlock_assembly sampleEnv 7 "" (makevideoOptionsInit "").makevideoOptions "g2v.gpx"
      [("video_height", ["100"]), ("video_border", ["10"])] (List.Perm.refl _)).2.1
    [] "video_width" (.int64 videoWidthOption) (makevideoOptionsInit "").makevideoOptions.tail
    rfl rfl (fun _ he => absurd he (List.not_mem_nil _))).1 rfl

/-! ## C7 -/

set_option maxRecDepth 100000 in
/-- C7, at an activity whose local start is 5 h 45 min ahead of its start (the offset of Nepal)
and a form without photos_timezone: the difference is 5.75 hours, `Float642Config` rejects it,
the handler drops the error and appends the empty line it got, so the document holds an empty
line between `[optional]` and `output_dir=` where the claim promises `photos_timezone=...`. The
same happens for a local start 3 h 30 min behind (the offset of Newfoundland). An offset of
8 hours is written as `photos_timezone=8`. -/
theorem assembleConfig_empty_timezone_line :
    Hours (TimeSub (1500000000000000000 + 20700000000000) 1500000000000000000) =
        .fin 6473924464345088 50 ∧
    (F64.fin 6473924464345088 50).val = 23 / 4 ∧
    (makevideoOptionsInit "").photosTimezoneOption.Float642Config (.fin 6473924464345088 50) =
        ("", some (.msg "格式不对")) ∧
    assembleConfig sampleEnv (makevideoOptionsInit "") 7 "g2v.gpx" "output"
        [("video_width", ["640"]), ("video_height", ["480"]), ("video_border", ["10"])]
        (.ok { StartDate := 1500000000000000000,
               StartDateLocal := 1500000000000000000 + 20700000000000 }) =
      .ok ("[required]\nffmpeg=/usr/bin/ffmpeg\ngoogle_map_key=KEY\ngps_file=g2v.gpx\n" ++
        "google_map_type=satellite\nvideo_width=640\nvideo_height=480\nvideo_border=10\n" ++
        "[optional]\n" ++ "\n" ++ "output_dir=output\n") ∧
    assembleConfig sampleEnv (makevideoOptionsInit "") 7 "g2v.gpx" "output"
        [("video_width", ["640"]), ("video_height", ["480"]), ("video_border", ["10"])]
        (.ok { StartDate := 1500000000000000000,
               StartDateLocal := 1500000000000000000 - 12600000000000 }) =
      .ok ("[required]\nffmpeg=/usr/bin/ffmpeg\ngoogle_map_key=KEY\ngps_file=g2v.gpx\n" ++
        "google_map_type=satellite\nvideo_width=640\nvideo_height=480\nvideo_border=10\n" ++
        "[optional]\n" ++ "\n" ++ "output_dir=output\n") ∧
    assembleConfig sampleEnv (makevideoOptionsInit "") 7 "g2v.gpx" "output"
        [("video_width", ["640"]), ("video_height", ["480"]), ("video_border", ["10"])]
        (.ok { StartDate := 1500000000000000000,
               StartDateLocal := 1500000000000000000 + 8 * 3600000000000 }) =
      .ok ("[required]\nffmpeg=/usr/bin/ffmpeg\ngoogle_map_key=KEY\ngps_file=g2v.gpx\n" ++
        "google_map_type=satellite\nvideo_width=640\nvideo_height=480\nvideo_border=10\n" ++
        "[optional]\n" ++ "photos_timezone=8\n" ++ "output_dir=output\n") := by
  refine ⟨by decide, ?_, by decide, by rfl, by rfl, by rfl⟩
  norm_num [F64.val]

/-! ## The track construction -/

/-- The loop returns the points of all its indices when every location entry it meets has two
elements, and the error otherwise. -/
theorem trackLoop_eq (StartDate : Int) (streams : StreamSet) (indices : List Nat)
    (gpx_file : List GPXPoint) :
    trackLoop StartDate streams indices gpx_file =
      if ∀ i ∈ indices, (streams.Location.getD i []).length = 2 then
        .ok (gpx_file ++ indices.map (trackPoint StartDate streams))
      else .error (.showError "strava提供轨迹数据有错") := by
  induction indices generalizing gpx_file with
  | nil => simp [trackLoop]
  | cons i rest ih =>
      unfold trackLoop
      by_cases hi : (streams.Location.getD i []).length = 2
      · rw [if_neg (by simpa using hi), ih]
        by_cases hr : ∀ j ∈ rest, (streams.Location.getD j []).length = 2
        · rw [if_pos hr, if_pos]
          · simp
          · intro j hj
            rcases List.mem_cons.1 hj with rfl | hj
            · exact hi
            · exact hr j hj
        · rw [if_neg hr, if_neg]
          intro h
          exact hr fun j hj => h j (List.mem_cons_of_mem _ hj)
      · rw [if_pos (by simpa using hi), if_neg]
        intro h
        exact hi (h i (List.mem_cons_self _ _))

/-- Every entry has two elements exactly when every index below the length does. -/
theorem location_entries_iff (location : List (List F64)) :
    (∀ i ∈ List.range location.length, (location.getD i []).length = 2) ↔
      ∀ e ∈ location, e.length = 2 := by
  constructor
  · intro h e he
    obtain ⟨i, hi, rfl⟩ := List.mem_iff_getElem.1 he
    have := h i (List.mem_range.2 hi)
    rwa [List.getD_eq_getElem?_getD, List.getElem?_eq_getElem hi] at this
  · intro h i hi
    have hi' := List.mem_range.1 hi
    rw [List.getD_eq_getElem?_getD, List.getElem?_eq_getElem hi']
    exact h _ (List.getElem_mem _)

/-- The result of the track construction. -/
theorem buildTrack_eq (StartDate : Int) (streams : StreamSet) :
    buildTrack StartDate streams =
      if (streams.Time.length = streams.Location.length ∧
          streams.Time.length = streams.Elevation.length) ∧
          ∀ e ∈ streams.Location, e.length = 2 then
        .ok ((List.range streams.Time.length).map (trackPoint StartDate streams))
      else .error (.showError "strava提供轨迹数据有错") := by
  unfold buildTrack
  simp only []
  by_cases hlen : streams.Time.length = streams.Location.length ∧
      streams.Time.length = streams.Elevation.length
  · have h1 : ¬ (streams.Time.length ≠ streams.Location.length ∨
        streams.Time.length ≠ streams.Elevation.length) := by
      rw [not_or, not_not, not_not]
      exact hlen
    rw [if_neg h1, trackLoop_eq, List.nil_append]
    have h2 : (∀ i ∈ List.range streams.Time.length,
        (streams.Location.getD i []).length = 2) ↔ ∀ e ∈ streams.Location, e.length = 2 := by
      rw [hlen.1]
      exact location_entries_iff streams.Location
    by_cases hall : ∀ e ∈ streams.Location, e.length = 2
    · rw [if_pos (h2.2 hall), if_pos ⟨hlen, hall⟩]
    · rw [if_neg (fun h => hall (h2.1 h)), if_neg (fun h => hall h.2)]
  · rw [if_pos, if_neg]
    · exact fun h => hlen h.1
    · by_contra hc
      rw [not_or, not_not, not_not] at hc
      exact hlen hc

/-! ## C11 -/

/-- The product `time.Duration(off) * time.Second` does not wrap for an offset of at most
9223372036 seconds in absolute value. -/
theorem wrapInt64_seconds (off : Int) (h1 : -9223372036 ≤ off) (h2 : off ≤ 9223372036) :
    wrapInt64 (off * Second) = off * Second := by
  unfold wrapInt64 Second
  omega

/-- C11 as stated fails for an offset whose nanoseconds do not fit a `time.Duration`: with the
offset 9223372037 s the product with `time.Second` wraps, and the timestamp of the point lies
before the start instead of `start + offset` seconds. -/
theorem buildTrack_offset_wraps :
    buildTrack 0
        { Time := [9223372037], Location := [[.fin 1 0, .fin 2 0]], Elevation := [.fin 0 0] } =
      .ok [{ Latitude := .fin 1 0, Longitude := .fin 2 0,
             Elevation := { data := .fin 0 0, notNull := true },
             Timestamp := -9223372036709551616 }] ∧
    (-9223372036709551616 : Int) ≠ 0 + 9223372037 * Second := by
  constructor
  · rfl
  · decide

/-- C11, amended: for every start and every three series of equal length `N` in which every
location entry has exactly two elements and every time offset is at most 9223372036 seconds in
absolute value (its nanoseconds fit a `time.Duration`), the construction returns a track of
exactly `N` points in input order, and the point of index `i` has the latitude and the longitude
of the entry `i`, the elevation of index `i` marked as present (whatever its value, zero
included), and the timestamp `start + offset i` seconds. -/
theorem buildTrack_points (StartDate : Int) (streams : StreamSet)
    (hlen1 : streams.Time.length = streams.Location.length)
    (hlen2 : streams.Time.length = streams.Elevation.length)
    (hloc : ∀ e ∈ streams.Location, e.length = 2)
    (hoff : ∀ off ∈ streams.Time, -9223372036 ≤ off ∧ off ≤ 9223372036) :
    ∃ track, buildTrack StartDate streams = .ok track ∧
      track.length = streams.Time.length ∧
      ∀ (i : Nat) (lat lon ele : F64) (off : Int),
        streams.Location[i]? = some [lat, lon] → streams.Elevation[i]? = some ele →
        streams.Time[i]? = some off →
        track[i]? = some
          { Latitude := lat, Longitude := lon,
            Elevation := { data := ele, notNull := true },
            Timestamp := StartDate + off * Second } := by
  refine ⟨(List.range streams.Time.length).map (trackPoint StartDate streams), ?_, ?_, ?_⟩
  · rw [buildTrack_eq, if_pos ⟨⟨hlen1, hlen2⟩, hloc⟩]
  · simp
  · intro i lat lon ele off hl he ht
    have hi : i < streams.Time.length := by
      by_contra hn
      rw [List.getElem?_eq_none (by omega)] at ht
      cases ht
    have hmem : off ∈ streams.Time := by
      rw [List.getElem?_eq_getElem hi] at ht
      injection ht with ht
      rw [← ht]
      exact List.getElem_mem _
    obtain ⟨h1, h2⟩ := hoff off hmem
    rw [List.getElem?_map, List.getElem?_range hi]
    simp only [Option.map_some', trackPoint, List.getD_eq_getElem?_getD, hl, he, ht,
      Option.getD_some, NewNullableFloat64, wrapInt64_seconds off h1 h2]
    rfl

/-- The amended C11 at a track of two points, the first with elevation zero. -/
theorem buildTrack_points_witness :
    ∃ track,
      buildTrack 1500000000000000000
          { Time := [0, 5], Location := [[.fin 1 0, .fin 2 0], [.fin 3 0, .fin 4 0]],
            Elevation := [.fin 0 0, .fin 7 0] } = .ok track ∧
      track[0]? = some
        { Latitude := .fin 1 0, Longitude := .fin 2 0,
          Elevation := { data := .fin 0 0, notNull := true },
          Timestamp := 1500000000000000000 + 0 * Second } :=
  let ⟨track, h, _, hp⟩ := buildTrack_points 1500000000000000000
    { Time := [0, 5], Location := [[.fin 1 0, .fin 2 0], [.fin 3 0, .fin 4 0]],
      Elevation := [.fin 0 0, .fin 7 0] } rfl rfl (by decide) (by decide)
  ⟨track, h, hp 0 (.fin 1 0) (.fin 2 0) (.fin 0 0) 0 rfl rfl rfl⟩

/-! ## C12 -/

/-- C12. The track construction is rejected, with the data error and without a track, if and
only if the three series do not all have the same length or some location entry does not have
exactly two elements; otherwise it returns a track. Locations of length 5 with elevations of
length 4 are rejected, and so is a location entry with one or with three elements. -/
theorem buildTrack_rejected_iff :
    (∀ (StartDate : Int) (streams : StreamSet),
      (buildTrack StartDate streams = .error (.showError "strava提供轨迹数据有错") ↔
        (¬ (streams.Time.length = streams.Location.length ∧
            streams.Time.length = streams.Elevation.length) ∨
          ∃ e ∈ streams.Location, e.length ≠ 2)) ∧
      ((∃ track, buildTrack StartDate streams = .ok track) ↔
        ¬ (¬ (streams.Time.length = streams.Location.length ∧
            streams.Time.length = streams.Elevation.length) ∨
          ∃ e ∈ streams.Location, e.length ≠ 2))) ∧
    (∀ (StartDate : Int) (a b c d e : List F64) (x y z u : F64) (t1 t2 t3 t4 t5 : Int),
      buildTrack StartDate
          { Time := [t1, t2, t3, t4, t5], Location := [a, b, c, d, e],
            Elevation := [x, y, z, u] } =
        .error (.showError "strava提供轨迹数据有错")) ∧
    (∀ (StartDate : Int) (lat ele : F64) (t : Int),
      buildTrack StartDate { Time := [t], Location := [[lat]], Elevation := [ele] } =
        .error (.showError "strava提供轨迹数据有错")) ∧
    (∀ (StartDate : Int) (lat lon extra ele : F64) (t : Int),
      buildTrack StartDate
          { Time := [t], Location := [[lat, lon, extra]], Elevation := [ele] } =
        .error (.showError "strava提供轨迹数据有错")) := by
  refine ⟨?_, ?_, ?_, ?_⟩
  · intro StartDate streams
    rw [buildTrack_eq]
    by_cases h : (streams.Time.length = streams.Location.length ∧
        streams.Time.length = streams.Elevation.length) ∧ ∀ e ∈ streams.Location, e.length = 2
    · rw [if_pos h]
      have hn : ¬ (¬ (streams.Time.length = streams.Location.length ∧
          streams.Time.length = streams.Elevation.length) ∨
          ∃ e ∈ streams.Location, e.length ≠ 2) := by
        rintro (h1 | ⟨e, he, h2⟩)
        · exact h1 h.1
        · exact h2 (h.2 e he)
      constructor
      · constructor
        · intro hc; cases hc
        · intro hc; exact absurd hc hn
      · constructor
        · intro _; exact hn
        · intro _; exact ⟨_, rfl⟩
    · rw [if_neg h]
      have hy : ¬ (streams.Time.length = streams.Location.length ∧
          streams.Time.length = streams.Elevation.length) ∨
          ∃ e ∈ streams.Location, e.length ≠ 2 := by
        by_contra hc
        rw [not_or, not_not] at hc
        apply h
        refine ⟨hc.1, fun e he => ?_⟩
        by_contra hne
        exact hc.2 ⟨e, he, hne⟩
      constructor
      · constructor
        · intro _; exact hy
        · intro _; rfl
      · constructor
        · rintro ⟨track, hc⟩; cases hc
        · intro hc; exact absurd hy hc
  · intro StartDate a b c d e x y z u t1 t2 t3 t4 t5
    rw [buildTrack_eq, if_neg]
    simp
  · intro StartDate lat ele t
    rw [buildTrack_eq, if_neg]
    simp
  · intro StartDate lat lon extra ele t
    rw [buildTrack_eq, if_neg]
    simp

/-! ## C13 -/

theorem String.length_eq_zero_iff_empty (s : String) : s.length = 0 ↔ s = "" := by
  constructor
  · intro h
    apply String.ext
    exact List.length_eq_zero.1 h
  · rintro rfl
    rfl

/-- The method of `BaseOption`: true exactly for a list that starts with a non-empty string. -/
theorem BaseOption.FormHaveData_iff (this : BaseOption) (form : List String) :
    this.FormHaveData form = true ↔ ∃ v rest, form = v :: rest ∧ v ≠ "" := by
  cases form with
  | nil => simp [BaseOption.FormHaveData]
  | cons v rest =>
      simp only [BaseOption.FormHaveData, List.cons.injEq, exists_and_right, exists_and_left,
        exists_eq', and_true]
      by_cases hv : v.length = 0
      · have := (String.length_eq_zero_iff_empty v).1 hv
        simp [hv, this]
      · have : v ≠ "" := fun h => hv ((String.length_eq_zero_iff_empty v).2 h)
        simp [hv, this]

/-- C13. `FormHaveData` of the options that are not boolean (`Int64Option`, `Float64Option`,
`PhotosTimezoneOption`, which all take the method of `BaseOption`) is true if and only if the
value list is non-empty and its first element is a non-empty string, whatever follows; of the
boolean options (`BoolOption`, `PhotosOption`) it is true for every value list, the empty one
included. The same holds through the interface of the registered options. -/
theorem FormHaveData_contract :
    (∀ (o : Int64Option) (form : List String),
      o.toBaseOption.FormHaveData form = true ↔ ∃ v rest, form = v :: rest ∧ v ≠ "") ∧
    (∀ (o : Float64Option) (form : List String),
      o.toBaseOption.FormHaveData form = true ↔ ∃ v rest, form = v :: rest ∧ v ≠ "") ∧
    (∀ (o : PhotosTimezoneOption) (form : List String),
      o.toBaseOption.FormHaveData form = true ↔ ∃ v rest, form = v :: rest ∧ v ≠ "") ∧
    (∀ (o : BoolOption) (form : List String), o.FormHaveData form = true) ∧
    (∀ (o : PhotosOption) (form : List String), o.toBoolOption.FormHaveData form = true) ∧
    (∀ (o : Int64Option) (form : List String),
      (MakevideoOptioner.int64 o).FormHaveData form = true ↔
        ∃ v rest, form = v :: rest ∧ v ≠ "") ∧
    (∀ (o : PhotosTimezoneOption) (form : List String),
      (MakevideoOptioner.photosTimezone o).FormHaveData form = true ↔
        ∃ v rest, form = v :: rest ∧ v ≠ "") ∧
    (∀ (o : PhotosOption) (form : List String),
      (MakevideoOptioner.photos o).FormHaveData form = true) ∧
    (∀ (o : Int64Option) (v w : String) (rest : List String),
      o.toBaseOption.FormHaveData (v :: rest) = o.toBaseOption.FormHaveData [v] ∧
      o.toBaseOption.FormHaveData ("" :: w :: rest) = false ∧
      o.toBaseOption.FormHaveData [] = false) ∧
    (∀ o : PhotosOption, o.toBoolOption.FormHaveData [] = true) := by
  refine ⟨fun o form => BaseOption.FormHaveData_iff o.toBaseOption form,
    fun o form => BaseOption.FormHaveData_iff o.toBaseOption form,
    fun o form => BaseOption.FormHaveData_iff o.toBaseOption form,
    fun _ _ => rfl, fun _ _ => rfl,
    fun o form => BaseOption.FormHaveData_iff o.toBaseOption form,
    fun o form => BaseOption.FormHaveData_iff o.toBaseOption form,
    fun _ _ => rfl, fun _ _ _ _ => ⟨rfl, rfl, rfl⟩, fun _ => rfl⟩

/-! ## C15 -/

/-- C15 as stated fails in its last part: an option whose `configName` is set and whose
`shortInfo` is empty gets the index as `shortInfo`, which is not its `configName`. -/
theorem Init_shortInfo_is_index_not_configName :
    (BaseOption.Init
        { configName := "width", required := true, shortInfo := "", longInfo := "",
          needRec := false } "video_width").shortInfo = "video_width" ∧
    (BaseOption.Init
        { configName := "width", required := true, shortInfo := "", longInfo := "",
          needRec := false } "video_width").configName = "width" ∧
    (BaseOption.Init
        { configName := "width", required := true, shortInfo := "", longInfo := "",
          needRec := false } "video_width").shortInfo ≠
      (BaseOption.Init
        { configName := "width", required := true, shortInfo := "", longInfo := "",
          needRec := false } "video_width").configName := by
  decide

/-- C15, amended: `Init(index)` sets `configName` to `index` exactly when it was empty and sets
`shortInfo` to `index` exactly when it was empty, and leaves `required`, `longInfo` and
`needRec` as they were; applying `Init(index)` twice gives the state one application gives;
after `Init` with a non-empty index `configName` and `shortInfo` are both non-empty; a defaulted
`shortInfo` equals the index, which is the option's `configName` whenever `configName` was
defaulted too. -/
theorem Init_contract (this : BaseOption) (index : String) :
    (this.Init index).configName = (if this.configName = "" then index else this.configName) ∧
    (this.Init index).shortInfo = (if this.shortInfo = "" then index else this.shortInfo) ∧
    (this.Init index).required = this.required ∧
    (this.Init index).longInfo = this.longInfo ∧
    (this.Init index).needRec = this.needRec ∧
    (this.Init index).Init index = this.Init index ∧
    (index ≠ "" → (this.Init index).configName ≠ "" ∧ (this.Init index).shortInfo ≠ "") ∧
    (this.shortInfo = "" → (this.Init index).shortInfo = index) ∧
    (this.shortInfo = "" → this.configName = "" →
      (this.Init index).shortInfo = (this.Init index).configName) := by
  obtain ⟨c, r, s, l, n⟩ := this
  by_cases hc : c = "" <;> by_cases hs : s = "" <;> by_cases hi : index = "" <;>
    simp [BaseOption.Init, hc, hs, hi]

/-- The amended C15 at an option without name and label, initialised as `video_width`. -/
theorem Init_contract_witness :
    (BaseOption.Init
        { configName := "", required := true, shortInfo := "", longInfo := "",
          needRec := false } "video_width").configName ≠ "" ∧
      (BaseOption.Init
        { configName := "", required := true, shortInfo := "", longInfo := "",
          needRec := false } "video_width").shortInfo ≠ "" :=
  (Init_contract
    { configName := "", required := true, shortInfo := "", longInfo := "", needRec := false }
    "video_width").2.2.2.2.2.2.1 (by decide)

/-! ## C16 -/

/-- C16. After `makevideoOptionsInit`: `show_index` has no duplicates and seven keys; a key is in
`show_index` exactly when it is a key of `makevideoOptions`, whose keys are distinct; every
registered option has a non-empty `configName` equal to its key; an option is required exactly
when its key is `video_width`, `video_height` or `video_border`, and these three keys are
registered. -/
theorem registry_invariant (photosLink : String) :
    (makevideoOptionsInit photosLink).show_index.Nodup ∧
    (makevideoOptionsInit photosLink).show_index.length = 7 ∧
    ((makevideoOptionsInit photosLink).makevideoOptions.map Prod.fst).Nodup ∧
    ((makevideoOptionsInit photosLink).makevideoOptions.map Prod.fst).length = 7 ∧
    (∀ k, k ∈ (makevideoOptionsInit photosLink).show_index ↔
      k ∈ (makevideoOptionsInit photosLink).makevideoOptions.map Prod.fst) ∧
    (∀ index option, (index, option) ∈ (makevideoOptionsInit photosLink).makevideoOptions →
      option.toBaseOption.configName ≠ "" ∧ option.toBaseOption.configName = index ∧
      (option.Getrequired = true ↔
        (index = "video_width" ∨ index = "video_height" ∨ index = "video_border"))) ∧
    (∀ index, (index = "video_width" ∨ index = "video_height" ∨ index = "video_border") →
      ∃ option, (index, option) ∈ (makevideoOptionsInit photosLink).makevideoOptions ∧
        option.Getrequired = true) := by
  have hshow : (makevideoOptionsInit photosLink).show_index =
      ["video_width", "video_height", "video_border", "video_limit_secs", "photos_dir",
        "photos_timezone", "photos_show_secs"] := rfl
  refine ⟨?_, rfl, ?_, ?_, ?_, ?_, ?_⟩
  · rw [hshow]
    decide
  · rw [registry_keys]
    decide
  · rw [registry_keys]
    rfl
  · intro k
    rw [registry_keys]
    rfl
  · intro index option hmem
    simp only [makevideoOptionsInit, makevideoOptionsRaw, List.map_cons, List.map_nil,
      List.mem_cons, Prod.mk.injEq, List.mem_nil_iff, or_false] at hmem
    rcases hmem with ⟨rfl, rfl⟩ | ⟨rfl, rfl⟩ | ⟨rfl, rfl⟩ | ⟨rfl, rfl⟩ | ⟨rfl, rfl⟩ |
      ⟨rfl, rfl⟩ | ⟨rfl, rfl⟩
    all_goals
      refine ⟨?_, rfl, ?_⟩
      · simp [MakevideoOptioner.toBaseOption, MakevideoOptioner.Init, BaseOption.Init]
      · simp [MakevideoOptioner.Getrequired, MakevideoOptioner.toBaseOption,
          MakevideoOptioner.Init, BaseOption.Init]
  · intro index hv
    obtain ⟨o, hmem, hreq, _⟩ :=
      registry_video_key_mem photosLink (makevideoOptionsInit photosLink).makevideoOptions
        (List.Perm.refl _) index hv
    exact ⟨.int64 o, hmem, hreq⟩

/-! ## The loop over the submitted keys -/

theorem lookup_mem {β : Type} (l : List (String × β)) (k : String) (v : β)
    (h : l.lookup k = some v) : (k, v) ∈ l := by
  induction l with
  | nil => cases h
  | cons e rest ih =>
      obtain ⟨a, b⟩ := e
      rw [List.lookup_cons] at h
      by_cases hk : k = a
      · subst hk
        simp only [beq_self_eq_true] at h
        injection h with h
        subst h
        exact List.mem_cons_self _ _
      · have : (k == a) = false := by simpa using hk
        rw [this] at h
        exact List.mem_cons_of_mem _ (ih h)

/-- What an iteration of the required loop leaves of the form: every entry except, for a required
option, the entries under its key. -/
theorem requiredStep_form (env : Env) (uid : Nat) (st st1 : ReqState) (index : String)
    (option : MakevideoOptioner) (h : requiredStep env uid st index option = .ok st1) :
    (∀ e ∈ st1.form, e ∈ st.form) ∧
      (option.Getrequired = true → ∀ e ∈ st1.form, e.1 ≠ index) := by
  unfold requiredStep at h
  by_cases hr : ¬ option.Getrequired
  · rw [if_pos hr] at h
    injection h with h
    subst h
    exact ⟨fun _ he => he, fun hreq => absurd hreq hr⟩
  · rw [if_neg hr] at h
    have key : st1.form = st.form.delete index := by
      cases hl : st.form.lookup index with
      | none => rw [hl] at h; cases h
      | some values =>
          rw [hl] at h
          simp only [] at h
          cases hc : option.Form2Config env values uid with
          | error err => rw [hc] at h; cases h
          | ok c =>
              rw [hc] at h
              simp only [] at h
              split at h
              · cases option with
                | int64 o => simp only [] at h; injection h with h; rw [← h]
                | photosTimezone o => cases h
                | photos o => cases h
              · injection h with h; rw [← h]
    rw [key]
    unfold Form.delete
    constructor
    · intro e he
      exact List.mem_of_mem_filter he
    · intro _ e he
      have := (List.mem_filter.1 he).2
      simpa using this

/-- What the required loop leaves of the form: entries of the submitted form, none of them under
the key of a required option. -/
theorem requiredLoop_form (env : Env) (uid : Nat) (options : List (String × MakevideoOptioner))
    (st st' : ReqState) (h : requiredLoop env uid options st = .ok st') :
    (∀ e ∈ st'.form, e ∈ st.form) ∧
      (∀ o ∈ options, o.2.Getrequired = true → ∀ e ∈ st'.form, e.1 ≠ o.1) := by
  induction options generalizing st with
  | nil =>
      injection h with h
      subst h
      exact ⟨fun _ he => he, fun _ ho => absurd ho (List.not_mem_nil _)⟩
  | cons o rest ih =>
      obtain ⟨i, opt⟩ := o
      unfold requiredLoop at h
      cases hstep : requiredStep env uid st i opt with
      | error a => rw [hstep] at h; cases h
      | ok st1 =>
          rw [hstep] at h
          obtain ⟨hsub, hdel⟩ := requiredStep_form env uid st st1 i opt hstep
          obtain ⟨ihsub, ihdel⟩ := ih st1 h
          refine ⟨fun e he => hsub e (ihsub e he), ?_⟩
          intro o ho hreq e he
          rcases List.mem_cons.1 ho with rfl | ho
          · exact hdel hreq e (ihsub e he)
          · exact ihdel o ho hreq e he

/-- The lines the loop over the submitted keys appends: each is the line `Form2Config` returns
for a submitted key that is registered and for which `FormHaveData` is true. -/
theorem optionalLoop_lines (env : Env) (uid : Nat) (options : List (String × MakevideoOptioner))
    (form : Form) (st st' : OptState) (h : optionalLoop env uid options form st = .ok st') :
    ∃ lines, st'.config = appendLines st.config lines ∧
      ∀ line ∈ lines, ∃ index values option, (index, values) ∈ form ∧
        options.lookup index = some option ∧ option.FormHaveData values = true ∧
        option.Form2Config env values uid = .ok line := by
  induction form generalizing st with
  | nil =>
      injection h with h
      subst h
      exact ⟨[], rfl, fun _ hl => absurd hl (List.not_mem_nil _)⟩
  | cons e rest ih =>
      obtain ⟨index, values⟩ := e
      unfold optionalLoop at h
      cases hstep : optionalStep env uid options st index values with
      | error a => rw [hstep] at h; cases h
      | ok st1 =>
          rw [hstep] at h
          obtain ⟨lines, hconf, hlines⟩ := ih st1 h
          have hstep' : (st1.config = st.config) ∨
              ∃ option line, options.lookup index = some option ∧
                option.FormHaveData values = true ∧
                option.Form2Config env values uid = .ok line ∧
                st1.config = st.config ++ (line ++ "\n") := by
            unfold optionalStep at hstep
            cases hl : options.lookup index with
            | none =>
                rw [hl] at hstep
                injection hstep with hstep
                exact Or.inl (by rw [← hstep])
            | some option =>
                rw [hl] at hstep
                simp only [] at hstep
                by_cases hd : option.FormHaveData values = true
                · rw [if_neg (by simpa using hd)] at hstep
                  cases hc : option.Form2Config env values uid with
                  | error err => rw [hc] at hstep; cases hstep
                  | ok c =>
                      rw [hc] at hstep
                      simp only [] at hstep
                      injection hstep with hstep
                      refine Or.inr ⟨option, c, rfl, hd, hc, ?_⟩
                      rw [← hstep]
                      split <;> rfl
                · rw [if_pos (by simpa using hd)] at hstep
                  injection hstep with hstep
                  exact Or.inl (by rw [← hstep])
          rcases hstep' with h0 | ⟨option, line, hl, hd, hc, h1⟩
          · refine ⟨lines, by rw [hconf, h0], ?_⟩
            intro line hline
            obtain ⟨i, v, o, hm, rest'⟩ := hlines line hline
            exact ⟨i, v, o, List.mem_cons_of_mem _ hm, rest'⟩
          · refine ⟨line :: lines, ?_, ?_⟩
            · rw [hconf, h1]
              rfl
            · intro l hline
              rcases List.mem_cons.1 hline with rfl | hline
              · exact ⟨index, values, option, List.mem_cons_self _ _, hl, hd, hc⟩
              · obtain ⟨i, v, o, hm, rest'⟩ := hlines l hline
                exact ⟨i, v, o, List.mem_cons_of_mem _ hm, rest'⟩

/-! ## The lines of the options -/

theorem key_value_ne_empty (key value : String) : key ++ "=" ++ value ≠ "" := by
  intro h
  have := congrArg String.length h
  simp only [String.length_append] at this
  have h1 : ("=" : String).length = 1 := rfl
  have h2 : ("" : String).length = 0 := rfl
  omega

/-- A line that `Form2Config` returns is the config name, `=` and a value, except for the empty
line a `PhotosOption` returns for an empty value list. -/
theorem MakevideoOptioner.Form2Config_line (env : Env) (option : MakevideoOptioner)
    (values : List String) (uid : Nat) (line : String)
    (h : option.Form2Config env values uid = .ok line) :
    (∃ value, line = option.toBaseOption.configName ++ "=" ++ value) ∨
      (values = [] ∧ line = "" ∧ ∃ o, option = .photos o) := by
  cases option with
  | int64 o =>
      obtain ⟨n, _, _, _, hc, _⟩ := Int64Option.Form2Int64_of_Form2Config o values uid line h
      exact Or.inl ⟨toString n, hc⟩
  | photosTimezone o =>
      left
      simp only [MakevideoOptioner.Form2Config, PhotosTimezoneOption.Form2Config] at h
      split at h
      · cases h
      · rename_i num _
        split at h
        · cases h
        · rename_i config hcfg
          injection h with h
          subst h
          obtain ⟨n, k, _, _, _, hr⟩ :=
            PhotosTimezoneOption.Float642Config_accepts o num config hcfg
          rcases hr with ⟨_, hl⟩ | ⟨_, hl⟩
          · exact ⟨_, hl⟩
          · exact ⟨_, hl⟩
  | photos o =>
      cases values with
      | nil =>
          simp only [MakevideoOptioner.Form2Config, PhotosOption.Form2Config] at h
          injection h with h
          exact Or.inr ⟨rfl, h.symm, o, rfl⟩
      | cons v rest =>
          left
          simp only [MakevideoOptioner.Form2Config, PhotosOption.Form2Config] at h
          split at h
          · cases h
          · injection h with h
            exact ⟨_, h.symm⟩

/-- In every ordering of the registry an option has its key as config name, and the only
`PhotosOption` is registered as `photos_dir`. -/
theorem registry_mem_configName (photosLink : String)
    (options : List (String × MakevideoOptioner))
    (hperm : options.Perm (makevideoOptionsInit photosLink).makevideoOptions)
    (index : String) (option : MakevideoOptioner) (hmem : (index, option) ∈ options) :
    option.toBaseOption.configName = index ∧
      ((∃ o, option = .photos o) → index = "photos_dir") := by
  have hmem' := hperm.mem_iff.1 hmem
  simp only [makevideoOptionsInit, makevideoOptionsRaw, List.map_cons, List.map_nil,
    List.mem_cons, Prod.mk.injEq, List.mem_nil_iff, or_false] at hmem'
  rcases hmem' with ⟨rfl, rfl⟩ | ⟨rfl, rfl⟩ | ⟨rfl, rfl⟩ | ⟨rfl, rfl⟩ | ⟨rfl, rfl⟩ |
    ⟨rfl, rfl⟩ | ⟨rfl, rfl⟩
  all_goals
    refine ⟨rfl, ?_⟩
    rintro ⟨o, ho⟩
    first
      | rfl
      | cases ho

/-! ## C14 -/

/-- The document of a form that assembles, for every ordering of the registry: the required
part, `[optional]`, the lines of the optional loop, the derived offset line (if any) and the
`output_dir` line. Every line of the optional loop is the line `Form2Config` returns for a
submitted key that is registered with an option that is not required and for which
`FormHaveData` is true; it is the non-empty line `key=value`, unless the key is `photos_dir`
and its value list is empty, where the line is empty. -/
theorem assembleConfig_optional_lines (env : Env) (uid : Nat) (photosLink : String)
    (options : List (String × MakevideoOptioner)) (gpx_name output_dir : String) (form : Form)
    (activity : Except GoError Activity) (doc : String)
    (hperm : options.Perm (makevideoOptionsInit photosLink).makevideoOptions)
    (h : assembleConfig env { makevideoOptionsInit photosLink with makevideoOptions := options }
      uid gpx_name output_dir form activity = .ok doc) :
    ∃ st lines tz,
      requiredLoop env uid options
          { config := configHead env gpx_name, form := form,
            video_width := 0, video_height := 0, video_border := 0 } = .ok st ∧
      doc = appendLines (st.config ++ "[optional]\n") lines ++ tz ++
        ("output_dir=" ++ output_dir ++ "\n") ∧
      (tz = "" ∨ ∃ act, activity = .ok act ∧
        tz = ((makevideoOptionsInit photosLink).photosTimezoneOption.Float642Config
          (Hours (TimeSub act.StartDateLocal act.StartDate))).1 ++ "\n") ∧
      ∀ line ∈ lines, ∃ index values option,
        (index, values) ∈ form ∧ (index, option) ∈ options ∧
        option.Getrequired = false ∧ option.FormHaveData values = true ∧
        option.Form2Config env values uid = .ok line ∧
        ((∃ value, line = index ++ "=" ++ value ∧ line ≠ "") ∨
          (index = "photos_dir" ∧ values = [] ∧ line = "")) := by
  unfold assembleConfig at h
  simp only [] at h
  cases hreq : requiredLoop env uid options
      { config := configHead env gpx_name, form := form,
        video_width := 0, video_height := 0, video_border := 0 } with
  | error a => rw [hreq] at h; cases h
  | ok st0 =>
      rw [hreq] at h
      simp only [] at h
      have hcross : crossCheck st0 = .ok st0 ∨ ∃ a, crossCheck st0 = .error a := by
        unfold crossCheck
        simp only []
        split
        · exact Or.inr ⟨_, rfl⟩
        · exact Or.inl rfl
      rcases hcross with hcross | ⟨a, hcross⟩
      · rw [hcross] at h
        simp only [] at h
        cases hopt : optionalLoop env uid options st0.form
            { config := st0.config ++ "[optional]\n", gotPhotosTimezoneOption := false } with
        | error a => rw [hopt] at h; cases h
        | ok ost =>
            rw [hopt] at h
            simp only [] at h
            cases activity with
            | error err => cases h
            | ok act =>
                simp only [] at h
                injection h with h
                obtain ⟨lines, hconf, hlines⟩ :=
                  optionalLoop_lines env uid options st0.form _ ost hopt
                obtain ⟨hsub, hdel⟩ := requiredLoop_form env uid options _ st0 hreq
                simp only [] at hconf
                refine ⟨st0, lines,
                  (if ¬ ost.gotPhotosTimezoneOption then
                    ((makevideoOptionsInit photosLink).photosTimezoneOption.Float642Config
                      (Hours (TimeSub act.StartDateLocal act.StartDate))).1 ++ "\n"
                   else ""), rfl, ?_, ?_, ?_⟩
                · rw [← h, ← hconf]
                  unfold appendTimezone
                  by_cases hg : ¬ ost.gotPhotosTimezoneOption
                  · rw [if_pos hg, if_pos hg]
                  · rw [if_neg hg, if_neg hg]
                    simp
                · by_cases hg : ¬ ost.gotPhotosTimezoneOption
                  · rw [if_pos hg]
                    exact Or.inr ⟨act, rfl, rfl⟩
                  · rw [if_neg hg]
                    exact Or.inl rfl
                · intro line hline
                  obtain ⟨index, values, option, hm, hl, hd, hc⟩ := hlines line hline
                  have hmem := lookup_mem options index option hl
                  have hnr : option.Getrequired = false := by
                    cases hr : option.Getrequired with
                    | false => rfl
                    | true => exact absurd rfl (hdel (index, option) hmem hr (index, values) hm)
                  obtain ⟨hname, hphotos⟩ :=
                    registry_mem_configName photosLink options hperm index option hmem
                  refine ⟨index, values, option, hsub _ hm, hmem, hnr, hd, hc, ?_⟩
                  rcases MakevideoOptioner.Form2Config_line env option values uid line hc with
                    ⟨value, hv⟩ | ⟨hv, hl', ho⟩
                  · rw [hname] at hv
                    exact Or.inl ⟨value, hv, hv ▸ key_value_ne_empty index value⟩
                  · exact Or.inr ⟨hphotos ho, hv, hl'⟩
      · rw [hcross] at h
        cases h

/-- C14. For every ordering of the registry and every submitted form (every value list
non-empty, as `r.ParseForm()` leaves them) that assembles, the document is the required part,
`[optional]`, the lines of the optional loop, then the derived offset line (if any) and the
`output_dir` line; and every line of the optional loop is the non-empty line `key=value` that
`Form2Config` returns for a submitted key registered with an option that is not required and
for which `FormHaveData` is true. Keys of required options and submitted keys that are not
registered give no line. -/
theorem optionalBlock_assembly (env : Env) (uid : Nat) (photosLink : String)
    (options : List (String × MakevideoOptioner)) (gpx_name output_dir : String) (form : Form)
    (activity : Except GoError Activity) (doc : String)
    (hperm : options.Perm (makevideoOptionsInit photosLink).makevideoOptions)
    (hne : ∀ e ∈ form, e.2 ≠ [])
    (h : assembleConfig env { makevideoOptionsInit photosLink with makevideoOptions := options }
      uid gpx_name output_dir form activity = .ok doc) :
    ∃ st lines tz,
      requiredLoop env uid options
          { config := configHead env gpx_name, form := form,
            video_width := 0, video_height := 0, video_border := 0 } = .ok st ∧
      doc = appendLines (st.config ++ "[optional]\n") lines ++ tz ++
        ("output_dir=" ++ output_dir ++ "\n") ∧
      (tz = "" ∨ ∃ act, activity = .ok act ∧
        tz = ((makevideoOptionsInit photosLink).photosTimezoneOption.Float642Config
          (Hours (TimeSub act.StartDateLocal act.StartDate))).1 ++ "\n") ∧
      ∀ line ∈ lines, ∃ index values option value,
        (index, values) ∈ form ∧ (index, option) ∈ options ∧
        option.Getrequired = false ∧ option.FormHaveData values = true ∧
        option.Form2Config env values uid = .ok line ∧
        line = index ++ "=" ++ value ∧ line ≠ "" := by
  obtain ⟨st, lines, tz, h1, h2, h3, h4⟩ := assembleConfig_optional_lines env uid photosLink
    options gpx_name output_dir form activity doc hperm h
  refine ⟨st, lines, tz, h1, h2, h3, ?_⟩
  intro line hline
  obtain ⟨index, values, option, hm, hmem, hnr, hd, hc, hshape⟩ := h4 line hline
  rcases hshape with ⟨value, hv, hnonempty⟩ | ⟨_, hempty, _⟩
  · exact ⟨index, values, option, value, hm, hmem, hnr, hd, hc, hv, hnonempty⟩
  · exact absurd hempty (hne (index, values) hm)

/-- The optional block of C14 at a form with `photos_timezone=3.5` and `photos_dir`. -/
theorem optionalBlock_assembly_witness :
    ∃ st lines tz,
      requiredLoop sampleEnv 7 (makevideoOptionsInit "").makevideoOptions
          { config := configHead sampleEnv "g2v.gpx",
            form := [("video_width", ["640"]), ("video_height", ["480"]),
              ("video_border", ["10"]), ("photos_timezone", ["3.5"]),
              ("photos_dir", ["photos_dir"])],
            video_width := 0, video_height := 0, video_border := 0 } = .ok st ∧
      ("[required]\nffmpeg=/usr/bin/ffmpeg\ngoogle_map_key=KEY\ngps_file=g2v.gpx\n" ++
        "google_map_type=satellite\nvideo_width=640\nvideo_height=480\nvideo_border=10\n" ++
        "[optional]\nphotos_timezone=3.500000\nphotos_dir=/users/7/photos\n" ++
        "output_dir=output\n") =
        appendLines (st.config ++ "[optional]\n") lines ++ tz ++
          ("output_dir=" ++ "output" ++ "\n") ∧
      ∀ line ∈ lines, line ≠ "" :=
  let ⟨st, lines, tz, h1, h2, _, h4⟩ := optionalBlock_assembly sampleEnv 7 ""
    (makevideoOptionsInit "").makevideoOptions "g2v.gpx" "output"
    [("video_width", ["640"]), ("video_height", ["480"]), ("video_border", ["10"]),
      ("photos_timezone", ["3.5"]), ("photos_dir", ["photos_dir"])]
    (.ok { StartDate := 1500000000000000000,
           StartDateLocal := 1500000000000000000 - 12600000000000 })
    ("[required]\nffmpeg=/usr/bin/ffmpeg\ngoogle_map_key=KEY\ngps_file=g2v.gpx\n" ++
      "google_map_type=satellite\nvideo_width=640\nvideo_height=480\nvideo_border=10\n" ++
      "[optional]\nphotos_timezone=3.500000\nphotos_dir=/users/7/photos\n" ++
      "output_dir=output\n")
    (List.Perm.refl _) (by decide) rfl
  ⟨st, lines, tz, h1, h2, fun line hline =>
    let ⟨_, _, _, _, _, _, _, _, _, _, hnonempty⟩ := h4 line hline
    hnonempty⟩

/-! ## C17 -/

/-- C17 as stated fails for an iteration of the option map that meets `video_height` before
`video_width` (an ordering of the same registry): the line of `video_height` then precedes the
line of `video_width` in the document, and with both values invalid the error reported is the
one of `video_height`, whereas the order of registration reports the one of `video_width`. -/
theorem requiredBlock_follows_iteration_order :
    heightFirstOrder.Perm (makevideoOptionsInit "").makevideoOptions ∧
    requiredLoop sampleEnv 7 heightFirstOrder
        { config := configHead sampleEnv "g2v.gpx",
          form := [("video_width", ["640"]), ("video_height", ["480"]),
            ("video_border", ["10"])],
          video_width := 0, video_height := 0, video_border := 0 } =
      .ok { config := "[required]\nffmpeg=/usr/bin/ffmpeg\ngoogle_map_key=KEY\n" ++
              "gps_file=g2v.gpx\ngoogle_map_type=satellite\n" ++
              "video_height=480\nvideo_width=640\nvideo_border=10\n",
            form := [], video_width := 640, video_height := 480, video_border := 10 } ∧
    requiredLoop sampleEnv 7 heightFirstOrder
        { config := configHead sampleEnv "g2v.gpx",
          form := [("video_width", ["abc"]), ("video_height", ["xyz"]),
            ("video_border", ["10"])],
          video_width := 0, video_height := 0, video_border := 0 } =
      .error (.showError "视频高度strconv.ParseInt: parsing \"xyz\": invalid syntax") ∧
    requiredLoop sampleEnv 7 (makevideoOptionsInit "").makevideoOptions
        { config := configHead sampleEnv "g2v.gpx",
          form := [("video_width", ["abc"]), ("video_height", ["xyz"]),
            ("video_border", ["10"])],
          video_width := 0, video_height := 0, video_border := 0 } =
      .error (.showError "视频宽度strconv.ParseInt: parsing \"abc\": invalid syntax") := by
  refine ⟨List.Perm.swap _ _ _, ?_, ?_, ?_⟩ <;> rfl

/-- C17, amended: for every ordering `options` of the registry, the order in which the option
map is iterated. (1) When the required loop goes through, the lines of the required options
appear in the document in that order, each as `key=number`. (2) When several required options
are invalid, the error reported is the one of the first of them in that order. (3) Whether the
loop goes through and the three numbers it leaves do not depend on the order: if it goes through
for one ordering, it does for every other ordering, with the same numbers. -/
theorem requiredBlock_order (env : Env) (uid : Nat) (photosLink : String)
    (options : List (String × MakevideoOptioner)) (gpx_name : String) (form : Form)
    (hperm : options.Perm (makevideoOptionsInit photosLink).makevideoOptions) :
    (∀ st, requiredLoop env uid options
          { config := configHead env gpx_name, form := form,
            video_width := 0, video_height := 0, video_border := 0 } = .ok st →
      st.config = appendLines (configHead env gpx_name)
        ((options.filter fun e => e.2.Getrequired).map
          fun e => e.1 ++ "=" ++ toString (st.video e.1))) ∧
    (∀ pre index option post a, options = pre ++ (index, option) :: post →
      (∀ e ∈ pre, requiredFailure env uid form e.1 e.2 = none) →
      requiredFailure env uid form index option = some a →
      requiredLoop env uid options
          { config := configHead env gpx_name, form := form,
            video_width := 0, video_height := 0, video_border := 0 } = .error a) ∧
    (∀ options2 : List (String × MakevideoOptioner),
      options2.Perm (makevideoOptionsInit photosLink).makevideoOptions →
      ∀ st, requiredLoop env uid options
          { config := configHead env gpx_name, form := form,
            video_width := 0, video_height := 0, video_border := 0 } = .ok st →
        ∃ st2, requiredLoop env uid options2
            { config := configHead env gpx_name, form := form,
              video_width := 0, video_height := 0, video_border := 0 } = .ok st2 ∧
          st2.video_width = st.video_width ∧ st2.video_height = st.video_height ∧
          st2.video_border = st.video_border) := by
  have hnd := registry_perm_nodup photosLink options hperm
  refine ⟨?_, ?_, ?_⟩
  · intro st hres
    obtain ⟨hnone, hconf, _, _, hnum⟩ := requiredLoop_ok env uid options _ st hnd hres
    rw [hconf]
    unfold requiredLines
    congr 1
    apply List.map_congr_left
    rintro ⟨index, option⟩ he
    obtain ⟨hmem, hreq⟩ := List.mem_filter.1 he
    have hreq' : option.Getrequired = true := by simpa using hreq
    obtain ⟨hv, o, rfl, _, _, hname⟩ :=
      registry_required_mem photosLink options hperm index option hmem hreq'
    obtain ⟨s, rest, n, hl, hp, h1, h2⟩ :=
      (requiredFailure_int64_none_iff env uid form index o hreq').1 (hnone _ hmem)
    obtain ⟨o', values, ho, hl', hn⟩ := hnum _ hmem hreq' hv
    injection ho with ho
    subst ho
    simp only [] at hl hl' hn ⊢
    rw [hl] at hl'
    injection hl' with hl'
    subst hl'
    obtain ⟨hline, hparse⟩ := requiredLine_int64 env uid form index o s rest n hl hp h1 h2
    rw [hline, hn, hparse, hname]
  · intro pre index option post a hopts hpre hfail
    rw [hopts] at hnd ⊢
    exact requiredLoop_first_failure env uid pre index option post _ a hnd hpre hfail
  · intro options2 hperm2 st hres
    obtain ⟨hnone, _, _, _, _⟩ := requiredLoop_ok env uid options _ st hnd hres
    have hsub : ∀ e, e ∈
        (makevideoOptionsInit photosLink).makevideoOptions.filter (fun e => e.2.Getrequired) →
        e ∈ options := fun e he => hperm.mem_iff.2 (List.mem_of_mem_filter he)
    rw [registry_required] at hsub
    have hw := hnone _ (hsub _ (List.mem_cons_self _ _))
    have hh := hnone _ (hsub _ (List.mem_cons_of_mem _ (List.mem_cons_self _ _)))
    have hb := hnone _
      (hsub _ (List.mem_cons_of_mem _ (List.mem_cons_of_mem _ (List.mem_cons_self _ _))))
    obtain ⟨sw, rw, w, hlw, hpw, hw1, hw2⟩ :=
      (requiredFailure_int64_none_iff env uid form _ videoWidthOption rfl).1 hw
    obtain ⟨sh, rh, h, hlh, hph, hh1, hh2⟩ :=
      (requiredFailure_int64_none_iff env uid form _ videoHeightOption rfl).1 hh
    obtain ⟨sb, rb, b, hlb, hpb, hb1, hb2⟩ :=
      (requiredFailure_int64_none_iff env uid form _ videoBorderOption rfl).1 hb
    have bw : 1 ≤ w ∧ w ≤ 640 := by
      refine ⟨hw1, ?_⟩
      rcases hw2 with h0 | h0
      · exact absurd h0 (by decide)
      · exact h0
    have bh : 1 ≤ h ∧ h ≤ 640 := by
      refine ⟨hh1, ?_⟩
      rcases hh2 with h0 | h0
      · exact absurd h0 (by decide)
      · exact h0
    have bb : 1 ≤ b ∧ b ≤ 640 := by
      refine ⟨hb1, ?_⟩
      rcases hb2 with h0 | h0
      · exact absurd h0 (by decide)
      · exact h0
    obtain ⟨st1, hst1, e1, e2, e3⟩ := requiredLoop_valid env uid photosLink options
      { config := configHead env gpx_name, form := form,
        video_width := 0, video_height := 0, video_border := 0 }
      sw sh sb rw rh rb w h b hperm hlw hpw bw hlh hph bh hlb hpb bb
    obtain ⟨st2, hst2, f1, f2, f3⟩ := requiredLoop_valid env uid photosLink options2
      { config := configHead env gpx_name, form := form,
        video_width := 0, video_height := 0, video_border := 0 }
      sw sh sb rw rh rb w h b hperm2 hlw hpw bw hlh hph bh hlb hpb bb
    rw [hres] at hst1
    injection hst1 with hst1
    subst hst1
    exact ⟨st2, hst2, by rw [f1, e1], by rw [f2, e2], by rw [f3, e3]⟩

/-- The amended C17 at the order of registration and the order that starts with `video_height`:
the loop goes through for both, with the same three numbers. -/
theorem requiredBlock_order_witness :
    ∃ st2, requiredLoop sampleEnv 7 heightFirstOrder
        { config := configHead sampleEnv "g2v.gpx",
          form := [("video_width", ["640"]), ("video_height", ["480"]),
            ("video_border", ["10"])],
          video_width := 0, video_height := 0, video_border := 0 } = .ok st2 ∧
      st2.video_width = 640 ∧ st2.video_height = 480 ∧ st2.video_border = 10 :=
  (requiredBlock_order sampleEnv 7 "" (makevideoOptionsInit "").makevideoOptions "g2v.gpx"
    [("video_width", ["640"]), ("video_height", ["480"]), ("video_border", ["10"])]
    (List.Perm.refl _)).2.2 heightFirstOrder (List.Perm.swap _ _ _)
    { config := "[required]\nffmpeg=/usr/bin/ffmpeg\ngoogle_map_key=KEY\n" ++
        "gps_file=g2v.gpx\ngoogle_map_type=satellite\n" ++
        "video_width=640\nvideo_height=480\nvideo_border=10\n",
      form := [], video_width := 640, video_height := 480, video_border := 10 } rfl
